import Mathlib

/-!
Verification of the market-data analytics engine (volume profile, fair value
gaps, opening-range breakout, technical-zone aggregation).

The Python source is shallowly embedded over exact rationals (`ℚ`): pandas
DataFrames of OHLCV bars become `List Bar` (chronological, oldest first),
`None` results become `Option`, and Python `round(x, p)` becomes exact
round-half-even at `p` decimal places (`roundQ`).
-/

/-- Round-half-even of a rational to an integer, the rounding mode of
Python's builtin round(). -/
def rhe (x : ℚ) : ℤ :=
  if x - (⌊x⌋ : ℚ) < 1/2 then ⌊x⌋
  else if 1/2 < x - (⌊x⌋ : ℚ) then ⌊x⌋ + 1
  else if ⌊x⌋ % 2 = 0 then ⌊x⌋ else ⌊x⌋ + 1

/-- Python round(x, p): round-half-even at p decimal places, idealized over
exact rationals. -/
def roundQ (p : ℕ) (x : ℚ) : ℚ := (rhe (x * 10 ^ p) : ℚ) / 10 ^ p

/-- One OHLCV bar (a DataFrame row with columns open/high/low/close/volume).
The timestamp column is not modelled: every algorithm below uses only
positional order, and the sources embedded here take the no-datetime-column
code paths (gap ids and ages fall back to the bar index). -/
structure Bar where
  opn : ℚ
  high : ℚ
  low : ℚ
  close : ℚ
  volume : ℚ
deriving Repr, DecidableEq, Inhabited

/-! ## FVGCalculator (src/services/compute/fvg_calculator.py) -/

/-- Interaction-analysis fields of a FairValueGap, as mutated by
FVGCalculator._analyze_gap_interaction. -/
structure GapInteraction where
  timesTested : ℕ
  lowestTest : Option ℚ
  highestTest : Option ℚ
  filledPercentage : ℚ
  currentlyInsideGap : Bool
deriving Repr, DecidableEq, Inhabited

/-- A FairValueGap record (fvg_calculator.py dataclass).  The candle/volume
context snapshots (candle_data, volume_data) are copies of input bars never
read by any algorithm and are not modelled; the datetime-free code path makes
gap_id the string "{timeframe}_gap_{i}" and age_minutes the candle index. -/
structure FairValueGap where
  gapId : String
  gapType : String
  timeframe : String
  gapHigh : ℚ
  gapLow : ℚ
  gapSize : ℚ
  gapMidpoint : ℚ
  ageMinutes : ℕ
  timesTested : ℕ
  lowestTest : Option ℚ
  highestTest : Option ℚ
  filledPercentage : ℚ
  currentlyInsideGap : Bool
deriving Repr, DecidableEq, Inhabited

/-- Loop body of _analyze_gap_interaction: one history candle updates
(tests, lowest_test, highest_test).  A candle tests the gap iff its
[low, high] intersects [gap_low, gap_high]; test extremes are clamped to the
gap boundaries and folded with min/max. -/
def gapTestStep (gapLow gapHigh : ℚ) (s : ℕ × Option ℚ × Option ℚ) (b : Bar) :
    ℕ × Option ℚ × Option ℚ :=
  let (tests, lowestTest, highestTest) := s
  if b.low ≤ gapHigh ∧ gapLow ≤ b.high then
    let testLow := max b.low gapLow
    let testHigh := min b.high gapHigh
    let lowest' := match lowestTest with
      | none => some testLow
      | some l => some (min l testLow)
    let highest' := match highestTest with
      | none => some testHigh
      | some h => some (max h testHigh)
    (tests + 1, lowest', highest')
  else s

/-- FVGCalculator._analyze_gap_interaction: scan the bars strictly after the
gap's 3-candle window, count tests, track clamped extremes, and derive
filled_percentage = min((highest - lowest) / gap_size * 100, 100), which
stays 0 when the gap was never tested.  An empty history returns the
dataclass defaults untouched (early return). -/
def analyzeGapInteraction (gapLow gapHigh gapSize : ℚ) (priceHistory : List Bar)
    (currentPrice : ℚ) : GapInteraction :=
  if priceHistory = [] then
    { timesTested := 0, lowestTest := none, highestTest := none,
      filledPercentage := 0, currentlyInsideGap := false }
  else
    let inside := decide (gapLow ≤ currentPrice ∧ currentPrice ≤ gapHigh)
    let r := priceHistory.foldl (gapTestStep gapLow gapHigh) (0, none, none)
    let filled :=
      if 0 < r.1 then
        match r.2.1, r.2.2 with
        | some l, some h => min ((h - l) / gapSize * 100) 100
        | _, _ => 0
      else 0
    { timesTested := r.1, lowestTest := r.2.1, highestTest := r.2.2,
      filledPercentage := filled, currentlyInsideGap := inside }

/-- One iteration of the 3-candle scan in FVGCalculator.detect_fvgs at index
i of the analysis window: candle3 = dfA[i], candle2 = dfA[i-1] (context only),
candle1 = dfA[i-2].  Bullish gap iff candle1.high < candle3.low, bearish iff
candle1.low > candle3.high; gaps smaller than min_gap_percentage (of the
midpoint) are discarded; interaction is analyzed on dfA[i+1:]. -/
def detectAt (minGapPct : ℚ) (dfA : List Bar) (timeframe : String)
    (currentPrice : ℚ) (i : ℕ) : Option FairValueGap :=
  let candle3 := dfA.getD i default
  let candle1 := dfA.getD (i - 2) default
  let build := fun (gapLow gapHigh : ℚ) (gapType : String) =>
    let gapSize := gapHigh - gapLow
    let gapMidpoint := (gapHigh + gapLow) / 2
    let gapPercentage := gapSize / gapMidpoint * 100
    if gapPercentage < minGapPct then none
    else
      let inter := analyzeGapInteraction gapLow gapHigh gapSize
        (dfA.drop (i + 1)) currentPrice
      some { gapId := timeframe ++ "_gap_" ++ toString i,
             gapType := gapType, timeframe := timeframe,
             gapHigh := gapHigh, gapLow := gapLow, gapSize := gapSize,
             gapMidpoint := gapMidpoint, ageMinutes := i,
             timesTested := inter.timesTested,
             lowestTest := inter.lowestTest,
             highestTest := inter.highestTest,
             filledPercentage := inter.filledPercentage,
             currentlyInsideGap := inter.currentlyInsideGap }
  if candle1.high < candle3.low then build candle1.high candle3.low "bullish"
  else if candle3.high < candle1.low then build candle3.high candle1.low "bearish"
  else none

/-- FVGCalculator.detect_fvgs: require ≥ 3 bars, restrict to the most recent
lookback_periods bars, and scan indices i = len-1, len-2, ..., 2 appending any
gap found at i. -/
def detectFvgs (minGapPct : ℚ) (df : List Bar) (timeframe : String)
    (currentPrice : ℚ) (lookback : ℕ) : List FairValueGap :=
  if df.length < 3 then []
  else
    let dfA := df.drop (df.length - min lookback df.length)
    ((List.range' 2 (dfA.length - 2)).reverse).foldl
      (fun acc i => acc ++ (detectAt minGapPct dfA timeframe currentPrice i).toList) []

/-- The three bars of the spec's FVG scenario: (h=100,l=98,v=1000),
(h=101,l=99,v=500), (h=104,l=102,v=1000). -/
def c4bars3 : List Bar :=
  [ { opn := 99, high := 100, low := 98, close := 99, volume := 1000 },
    { opn := 100, high := 101, low := 99, close := 100, volume := 500 },
    { opn := 103, high := 104, low := 102, close := 103, volume := 1000 } ]

/-- The fourth bar of the scenario: h=103, l=100.5. -/
def c4bar4 : Bar := { opn := 102, high := 103, low := 100.5, close := 101, volume := 800 }


/-- Entry of the nearest-gap query result (the gap_info dict built by
FVGCalculator.find_nearest_gaps). -/
structure GapInfo where
  level : ℚ
  timeframe : String
  gapId : String
  distance : ℚ
  gapType : String
  filledPercentage : ℚ
deriving Repr, DecidableEq, Inhabited

/-- The gap_info record find_nearest_gaps builds for one gap: rounded
midpoint, rounded absolute distance of the midpoint to current price, and
rounded fill percentage. -/
def gapInfoOf (currentPrice : ℚ) (gap : FairValueGap) : GapInfo :=
  { level := roundQ 2 gap.gapMidpoint,
    timeframe := gap.timeframe,
    gapId := gap.gapId,
    distance := roundQ 2 |gap.gapMidpoint - currentPrice|,
    gapType := gap.gapType,
    filledPercentage := roundQ 1 gap.filledPercentage }

/-- The gaps_above list of find_nearest_gaps before sorting: infos of the
gaps with gap_low > current_price, in input order. -/
def gapsAboveOf (gaps : List FairValueGap) (currentPrice : ℚ) : List GapInfo :=
  (gaps.filter (fun g => decide (currentPrice < g.gapLow))).map (gapInfoOf currentPrice)

/-- The gaps_below list of find_nearest_gaps before sorting: infos of the
gaps that fail the above test (Python's elif) and have
gap_high < current_price. -/
def gapsBelowOf (gaps : List FairValueGap) (currentPrice : ℚ) : List GapInfo :=
  (gaps.filter (fun g =>
    decide (¬ currentPrice < g.gapLow ∧ g.gapHigh < currentPrice))).map (gapInfoOf currentPrice)

/-- gaps_above.sort(key=distance): Python's stable sort modelled by insertion
sort (also stable). -/
def sortedGapsAbove (gaps : List FairValueGap) (currentPrice : ℚ) : List GapInfo :=
  (gapsAboveOf gaps currentPrice).insertionSort (fun a b => a.distance ≤ b.distance)

/-- gaps_below.sort(key=distance). -/
def sortedGapsBelow (gaps : List FairValueGap) (currentPrice : ℚ) : List GapInfo :=
  (gapsBelowOf gaps currentPrice).insertionSort (fun a b => a.distance ≤ b.distance)

/-- FVGCalculator.find_nearest_gaps: partition gaps into those with
gap_low > current_price ("above") and, failing that, gap_high < current_price
("below"); sort each partition by ascending recorded distance and keep the
first max_gaps entries. -/
def findNearestGaps (gaps : List FairValueGap) (currentPrice : ℚ) (maxGaps : ℕ) :
    List GapInfo × List GapInfo :=
  ((sortedGapsAbove gaps currentPrice).take maxGaps,
   (sortedGapsBelow gaps currentPrice).take maxGaps)

/-! ## Opening Range Breakout (src/services/tools/orb_tool.py) -/

/-- Position of the current price relative to the opening range
(orb_tool.py lines 119-128; the claims here do not involve the distance
percentage, which is omitted). -/
def orbPosition (currentPrice orbHigh orbLow : ℚ) : String :=
  if orbHigh < currentPrice then "above_range"
  else if currentPrice < orbLow then "below_range"
  else "inside_range"

/-- Breakout-confirmation block of financial_orb_analysis (lines 130-152):
returns (breakout_confirmed, breakout_type) from the post-opening-range
closes.  The bearish branch is an elif of the bullish 0.1%-buffer test. -/
def orbBreakout (currentPrice orbHigh orbLow : ℚ) (postCloses : List ℚ) :
    Bool × Option String :=
  let position := orbPosition currentPrice orbHigh orbLow
  if postCloses = [] then (false, none)
  else
    if postCloses.any (fun c => decide (orbHigh * (1001/1000) < c)) then
      let barsAbove := (postCloses.filter (fun c => decide (orbHigh < c))).length
      if 3 ≤ barsAbove ∧ position = "above_range" then (true, some "bullish")
      else (false, none)
    else if postCloses.any (fun c => decide (c < orbLow * (999/1000))) then
      let barsBelow := (postCloses.filter (fun c => decide (c < orbLow))).length
      if 3 ≤ barsBelow ∧ position = "below_range" then (true, some "bearish")
      else (false, none)
    else (false, none)

/-- Result dict of detect_orb_squeeze.  Fields absent from a branch's dict
are modelled as none. -/
structure SqueezeResult where
  squeezeDetected : Bool
  contractingRanges : Option Bool
  compression : Option ℚ
  rangeProgression : Option (List (ℕ × ℚ))
  message : Option String
  interpretation : Option String
deriving Repr, DecidableEq, Inhabited

/-- sorted(zip(periods, ranges)): Python sorts the (period, range) tuples
lexicographically; modelled with stable insertion sort. -/
def sortedSqueezeEntries (entries : List (ℕ × ℚ)) : List (ℕ × ℚ) :=
  entries.insertionSort (fun a b => a.1 < b.1 ∨ (a.1 = b.1 ∧ a.2 ≤ b.2))

/-- The ranges in ascending period order. -/
def squeezeRanges (entries : List (ℕ × ℚ)) : List ℚ :=
  (sortedSqueezeEntries entries).map Prod.snd

/-- compression_ratio = ranges[-1] / ranges[0] when ranges[0] > 0, else 1. -/
def squeezeCompression (entries : List (ℕ × ℚ)) : ℚ :=
  if 0 < (squeezeRanges entries).headD 0 then
    (squeezeRanges entries).getLastD 0 / (squeezeRanges entries).headD 0
  else 1

/-- detect_orb_squeeze on the collected valid (period, orb_range) pairs:
needs at least two periods; sorts the pairs as Python sorts tuples
(lexicographically); contracting iff each range is ≤ its predecessor in
period order; compression_ratio = last range / first range when the first
range is positive, else 1; squeeze iff contracting and ratio < 0.7.  The
reported compression_ratio is rounded to 2 places, while the squeeze test
uses the unrounded ratio, as in the source. -/
def detectOrbSqueeze (entries : List (ℕ × ℚ)) : SqueezeResult :=
  if entries.length < 2 then
    { squeezeDetected := false, contractingRanges := none, compression := none,
      rangeProgression := none,
      message := some "Insufficient ORB periods for squeeze detection",
      interpretation := none }
  else
    let sortedE := sortedSqueezeEntries entries
    let rs := sortedE.map Prod.snd
    let contracting := decide (List.Chain' (fun a b => b ≤ a) rs)
    let cr : ℚ := squeezeCompression entries
    let squeeze := contracting && decide (cr < 7/10)
    { squeezeDetected := squeeze,
      contractingRanges := some contracting,
      compression := some (roundQ 2 cr),
      rangeProgression := some (sortedE.map (fun pr => (pr.1, roundQ 2 pr.2))),
      message := none,
      interpretation := some (if squeeze then "Potential explosive move ahead"
                              else "Normal range expansion") }

/-! ## Volume profile (src/server/compute/technical_analysis.py,
calculate_volume_profile) -/

/-- Minimum of a list of rationals (pandas Series.min on a nonempty column). -/
def listMin : List ℚ → ℚ
  | [] => 0
  | x :: xs => xs.foldl min x

/-- Maximum of a list of rationals (pandas Series.max on a nonempty column). -/
def listMax : List ℚ → ℚ
  | [] => 0
  | x :: xs => xs.foldl max x

/-- price_min = df['low'].min(). -/
def priceMin (df : List Bar) : ℚ := listMin (df.map Bar.low)

/-- price_max = df['high'].max(). -/
def priceMax (df : List Bar) : ℚ := listMax (df.map Bar.high)

/-- np.linspace(lo, hi, n + 1): n + 1 equally spaced edges from lo to hi,
idealized over exact rationals. -/
def npLinspace (lo hi : ℚ) (n : ℕ) : List ℚ :=
  (List.range (n + 1)).map (fun (j : ℕ) => lo + (j : ℚ) * ((hi - lo) / n))

/-- np.searchsorted(bs, x, side='left') on a sorted edge list: the number of
edges strictly below x (bs is always the sorted linspace output here). -/
def searchLeft (bs : List ℚ) (x : ℚ) : ℕ :=
  (bs.filter (fun e => decide (e < x))).length

/-- np.searchsorted(bs, x, side='right') on a sorted edge list: the number of
edges ≤ x. -/
def searchRight (bs : List ℚ) (x : ℚ) : ℕ :=
  (bs.filter (fun e => decide (e ≤ x))).length

/-- Python dict update d[k] = d.get(k, 0) + v, preserving insertion order of
keys as Python dicts do. -/
def dictAdd (d : List (ℚ × ℚ)) (k v : ℚ) : List (ℚ × ℚ) :=
  match d with
  | [] => [(k, v)]
  | (k', v') :: rest =>
    if k' = k then (k', v' + v) :: rest else (k', v') :: dictAdd rest k v

/-- Python d.get(k, dflt). -/
def dictGet (d : List (ℚ × ℚ)) (k dflt : ℚ) : ℚ :=
  match d.find? (fun kv => decide (kv.1 = k)) with
  | some kv => kv.2
  | none => dflt

/-- Sum of the values of a price→volume dict. -/
def dictSum (d : List (ℚ × ℚ)) : ℚ := (d.map Prod.snd).sum

/-- bin_price = round((bins[j] + bins[j+1]) / 2, price_precision) with the
default price_precision = 2. -/
def binPrice (bs : List ℚ) (j : ℕ) : ℚ :=
  roundQ 2 ((bs.getD j 0 + bs.getD (j + 1) 0) / 2)

/-- Loop body of calculate_volume_profile for one bar: locate the spanned
bin range via searchsorted, and if it is nonempty spread volume/span over
the in-range bins keyed by rounded bin midpoints (indices ≥ num_bins fall
outside 0 ≤ bin_idx < len(bins)-1 and are silently skipped). -/
def addBarVolume (bs : List ℚ) (d : List (ℚ × ℚ)) (b : Bar) : List (ℚ × ℚ) :=
  let lowBinIdx := searchLeft bs b.low
  let highBinIdx := searchRight bs b.high
  if lowBinIdx < highBinIdx then
    let volumePerBin := b.volume / ((highBinIdx - lowBinIdx : ℕ) : ℚ)
    ((List.range' lowBinIdx (highBinIdx - lowBinIdx)).filter
        (fun j => decide (j + 1 < bs.length))).foldl
      (fun d' j => dictAdd d' (binPrice bs j) volumePerBin) d
  else d

/-- The volume_by_price dict built by calculate_volume_profile's bar loop. -/
def volumeByPrice (df : List Bar) (numBins : ℕ) : List (ℚ × ℚ) :=
  let bs := npLinspace (priceMin df) (priceMax df) numBins
  df.foldl (addBarVolume bs) []

/-- Total volume actually present in the input series. -/
def totalInputVolume (df : List Bar) : ℚ := (df.map Bar.volume).sum

/-- Sum of the per-bin volumes aggregated by the profiler. -/
def binnedVolume (df : List Bar) (numBins : ℕ) : ℚ :=
  dictSum (volumeByPrice df numBins)

/-- Volume the bar loop drops from one bar: all of it when its [low, high]
interval contains no bin edge (empty searchsorted span), and one per-bin
share when its high reaches the top edge (the topmost spanned index
num_bins is out of range). -/
def lostTerm (bs : List ℚ) (pmax : ℚ) (b : Bar) : ℚ :=
  let lo := searchLeft bs b.low
  let hi := searchRight bs b.high
  if hi ≤ lo then b.volume
  else if b.high = pmax then b.volume / ((hi - lo : ℕ) : ℚ)
  else 0

/-- Total volume the bar loop drops. -/
def lostVolume (df : List Bar) (numBins : ℕ) : ℚ :=
  (df.map (lostTerm (npLinspace (priceMin df) (priceMax df) numBins)
    (priceMax df))).sum

/-- The value-area expansion loop of calculate_volume_profile.  State:
remaining fuel, accumulated volume, value_area_prices, left_idx, right_idx.
Returns (accumulated, value_area_prices, normal) where normal is true iff
the while condition accumulated < target failed (normal termination) rather
than the both-sides-exhausted break.  The fuel passed by vpCore
(len(all_prices) + 2) always exceeds the loop's possible iteration count,
since every iteration moves left_idx down or right_idx up. -/
def vaLoop (d : List (ℚ × ℚ)) (allPrices : List ℚ) (target : ℚ) :
    ℕ → ℚ → List ℚ → ℤ → ℤ → ℚ × List ℚ × Bool
  | 0, acc, ps, _, _ => (acc, ps, false)
  | fuel + 1, acc, ps, leftIdx, rightIdx =>
    if target ≤ acc then (acc, ps, true)
    else
      let leftVolume := if 0 ≤ leftIdx then dictGet d (allPrices.getD leftIdx.toNat 0) 0 else 0
      let rightVolume :=
        if rightIdx < (allPrices.length : ℤ) then dictGet d (allPrices.getD rightIdx.toNat 0) 0
        else 0
      if rightVolume ≤ leftVolume ∧ 0 ≤ leftIdx then
        vaLoop d allPrices target fuel (acc + leftVolume)
          (ps ++ [allPrices.getD leftIdx.toNat 0]) (leftIdx - 1) rightIdx
      else if rightIdx < (allPrices.length : ℤ) then
        vaLoop d allPrices target fuel (acc + rightVolume)
          (ps ++ [allPrices.getD rightIdx.toNat 0]) leftIdx (rightIdx + 1)
      else (acc, ps, false)

/-- One HVN/LVN band: {'start': ..., 'end': ..., 'volume': ...}. -/
structure VolumeNode where
  nstart : ℚ
  nend : ℚ
  nvolume : ℚ
deriving Repr, DecidableEq, Inhabited

/-- Merge a qualifying bin into the first existing node whose recorded start
is within 1.5 bin widths, updating that node in place (end = max, start =
min, volume combined with max for HVNs / min for LVNs); none if no node is
close enough. -/
def tryMergeNode (combine : ℚ → ℚ → ℚ) (binWidth price volume : ℚ) :
    List VolumeNode → Option (List VolumeNode)
  | [] => none
  | n :: rest =>
    if |price - n.nstart| ≤ binWidth * (3/2) then
      some ({ nstart := min n.nstart price, nend := max n.nend price,
              nvolume := combine n.nvolume volume } :: rest)
    else (tryMergeNode combine binWidth price volume rest).map (n :: ·)

/-- The HVN/LVN scan: walk the (price, volume) items in the given order,
keep qualifying bins, merging each into a nearby node or appending a fresh
half-bin-width band around the price. -/
def scanNodes (qualifies : ℚ → Bool) (combine : ℚ → ℚ → ℚ) (binWidth : ℚ)
    (items : List (ℚ × ℚ)) : List VolumeNode :=
  items.foldl (fun nodes pv =>
    if qualifies pv.2 then
      match tryMergeNode combine binWidth pv.1 pv.2 nodes with
      | some nodes' => nodes'
      | none => nodes ++ [{ nstart := roundQ 2 (pv.1 - binWidth / 2),
                            nend := roundQ 2 (pv.1 + binWidth / 2),
                            nvolume := pv.2 }]
    else nodes) []

/-- The HVN volume threshold: the volume at rank int(len*0.2) of the
volume-descending list, or the smallest volume when there are at most 5
bins (int(len*0.2) of the float product equals len/5 for feasible list
lengths). -/
def hvnThresholdOf (sortedPrices : List (ℚ × ℚ)) : ℚ :=
  if 5 < sortedPrices.length then (sortedPrices.getD (sortedPrices.length / 5) (0, 0)).2
  else (sortedPrices.getD (sortedPrices.length - 1) (0, 0)).2

/-- The LVN volume threshold: rank int(len*0.8) (= len*4/5), or the largest
volume when there are at most 5 bins. -/
def lvnThresholdOf (sortedPrices : List (ℚ × ℚ)) : ℚ :=
  if 5 < sortedPrices.length then
    (sortedPrices.getD (sortedPrices.length * 4 / 5) (0, 0)).2
  else (sortedPrices.getD 0 (0, 0)).2

/-- The result dict of calculate_volume_profile. -/
structure VolumeProfile where
  pointOfControl : ℚ
  valueAreaHigh : ℚ
  valueAreaLow : ℚ
  highVolumeNodes : List VolumeNode
  lowVolumeNodes : List VolumeNode
  totalVolume : ℚ
  valueAreaVolume : ℚ
  valueAreaPercentage : ℚ
deriving Repr, DecidableEq, Inhabited

/-- calculate_volume_profile, additionally exposing whether the value-area
loop terminated normally and the list of value-area prices (used only by
theorems; the function's own result is the VolumeProfile).  Follows the
source: None on empty input, degenerate price range (price_min ≥ price_max)
or empty volume dict; sorted_prices is the stable volume-descending sort of
the dict items; int(len * 0.2) and int(len * 0.8) of the HVN/LVN threshold
ranks are len / 5 and len * 4 / 5 (their float products never cross an
integer boundary downward for list lengths in range). -/
def vpCore (df : List Bar) (numBins : ℕ) : Option (VolumeProfile × Bool × List ℚ) :=
  if df = [] then none
  else if priceMax df ≤ priceMin df then none
  else
    let bs := npLinspace (priceMin df) (priceMax df) numBins
    let binWidth := bs.getD 1 0 - bs.getD 0 0
    let d := volumeByPrice df numBins
    if d = [] then none
    else
      let sortedPrices := d.insertionSort (fun a b => b.2 ≤ a.2)
      let poc := (sortedPrices.headD (0, 0)).1
      let totalVolume := dictSum sortedPrices
      let valueAreaTarget := totalVolume * (7/10)
      let allPrices := (d.map Prod.fst).insertionSort (fun a b => a ≤ b)
      let pocPriceIdx := allPrices.indexOf poc
      let st := vaLoop d allPrices valueAreaTarget (allPrices.length + 2)
        (dictGet d poc 0) [poc] ((pocPriceIdx : ℤ) - 1) ((pocPriceIdx : ℤ) + 1)
      let vah := listMax st.2.1
      let val := listMin st.2.1
      let hvns := scanNodes (fun v => decide (hvnThresholdOf sortedPrices ≤ v)) max
        binWidth sortedPrices
      let lvns := scanNodes (fun v => decide (v ≤ lvnThresholdOf sortedPrices)) min
        binWidth sortedPrices.reverse
      some ({ pointOfControl := roundQ 2 poc,
              valueAreaHigh := roundQ 2 vah,
              valueAreaLow := roundQ 2 val,
              highVolumeNodes := hvns.take 5,
              lowVolumeNodes := lvns.take 5,
              totalVolume := totalVolume,
              valueAreaVolume := st.1,
              valueAreaPercentage := roundQ 2 (st.1 / totalVolume * 100) },
            st.2.2, st.2.1)

/-- calculate_volume_profile's returned dict (or None). -/
def calculateVolumeProfile (df : List Bar) (numBins : ℕ) : Option VolumeProfile :=
  (vpCore df numBins).map (fun r => r.1)

/-! ## Fibonacci levels and the technical-zones aggregation
(src/server/compute/technical_analysis.py, calculate_fibonacci_levels, and
src/server/tools/technical_zones_tool.py, financial_technical_zones). -/

/-- One technical zone dict.  Zones carry either a single level or a
range_start/range_end pair; absent keys are none.  Numeric-to-string
formatting inside names uses Lean's rational toString rather than Python's
float formatting; no algorithm reads names back. -/
structure Zone where
  ztype : String
  name : String
  level : Option ℚ
  rangeStart : Option ℚ
  rangeEnd : Option ℚ
  source : String
deriving Repr, DecidableEq, Inhabited

/-- calculate_fibonacci_levels: over the last lookback_periods bars compute
swing high/low; empty result on short input or a degenerate swing range;
otherwise the nine standard ratio levels in dict order, retracements
classified SUPPORT when current close is above the level and RESISTANCE
otherwise, extensions TARGET_UPSIDE. -/
def calculateFibonacciLevels (df : List Bar) (lookback : ℕ) : List Zone :=
  if df = [] ∨ df.length < lookback then []
  else
    let recent := df.drop (df.length - lookback)
    let swingHigh := listMax (recent.map Bar.high)
    let swingLow := listMin (recent.map Bar.low)
    if swingHigh ≤ swingLow then []
    else
      let priceRange := swingHigh - swingLow
      let currentPrice := (df.getLastD default).close
      let fibLevels : List (String × ℚ × ℚ) :=
        [("0.0", 0, swingLow),
         ("0.236", 236/1000, swingLow + priceRange * (236/1000)),
         ("0.382", 382/1000, swingLow + priceRange * (382/1000)),
         ("0.5", 1/2, swingLow + priceRange * (1/2)),
         ("0.618", 618/1000, swingLow + priceRange * (618/1000)),
         ("0.786", 786/1000, swingLow + priceRange * (786/1000)),
         ("1.0", 1, swingHigh),
         ("1.272", 1272/1000, swingHigh + priceRange * (272/1000)),
         ("1.618", 1618/1000, swingHigh + priceRange * (618/1000))]
      fibLevels.map (fun lv =>
        { ztype := if lv.snd.fst ≤ (1 : ℚ) then
                     (if lv.snd.snd < currentPrice then "SUPPORT" else "RESISTANCE")
                   else "TARGET_UPSIDE",
          name := "Fib " ++ lv.1,
          level := some (roundQ 2 lv.snd.snd),
          rangeStart := none, rangeEnd := none,
          source := "Fibonacci (" ++ toString lookback ++ " bars)" })

/-- Python substring test (the pattern occurs somewhere in s). -/
def strContains (s pat : String) : Bool := 2 ≤ (s.splitOn pat).length

/-- The VP-derived zones appended by financial_technical_zones when the
volume profile succeeds: POC, VAH/VAL (widened by half the configured
banding width when it is nonzero, Python truthiness), then HVN and LVN
bands. -/
def vpZonesOf (tfKey vpInterval : String) (pbw : ℚ) (vp : VolumeProfile) : List Zone :=
  let src := "Volume Profile (" ++ vpInterval ++ " Bars)"
  [ { ztype := "NEUTRAL", name := tfKey.toUpper ++ " POC",
      level := some vp.pointOfControl, rangeStart := none, rangeEnd := none,
      source := src },
    { ztype := "RESISTANCE", name := tfKey.toUpper ++ " VAH", level := none,
      rangeStart := some vp.valueAreaHigh,
      rangeEnd := some (if pbw ≠ 0 then vp.valueAreaHigh + pbw / 2
                        else vp.valueAreaHigh),
      source := src },
    { ztype := "SUPPORT", name := tfKey.toUpper ++ " VAL", level := none,
      rangeStart := some (if pbw ≠ 0 then vp.valueAreaLow - pbw / 2
                          else vp.valueAreaLow),
      rangeEnd := some vp.valueAreaLow,
      source := src } ]
  ++ vp.highVolumeNodes.map (fun hvn =>
      { ztype := if vp.pointOfControl < hvn.nstart then "RESISTANCE" else "SUPPORT",
        name := tfKey.toUpper ++ " HVN " ++ toString (roundQ 2 hvn.nstart),
        level := none, rangeStart := some hvn.nstart, rangeEnd := some hvn.nend,
        source := src })
  ++ vp.lowVolumeNodes.map (fun lvn =>
      { ztype := "NEUTRAL",
        name := tfKey.toUpper ++ " LVN " ++ toString (roundQ 2 lvn.nstart),
        level := none, rangeStart := some lvn.nstart, rangeEnd := some lvn.nend,
        source := src })

/-- Per-timeframe output record of financial_technical_zones (the
calculation_context block, which only echoes configuration, is omitted). -/
structure FrameOut where
  status : String
  message : String
  zones : List Zone
deriving Repr, DecidableEq, Inhabited

/-- State threaded through one timeframe iteration of
financial_technical_zones: technical_zones_list, frame_status,
frame_message, the parsed ATR value, and frame_fetch_failed. -/
structure FrameState where
  zones : List Zone
  status : String
  message : String
  atrValue : Option ℚ
  fetchFailed : Bool
deriving Repr, DecidableEq, Inhabited

/-- Steps 1-2 of a timeframe iteration: fetch bars (parameter dfBars models
twelvedata_fetcher.fetch_time_series: none = hard fetch error, some [] =
empty frame), then volume profile zones and Fibonacci zones. -/
def frameBarsStep (tfKey vpInterval : String) (pbw : ℚ)
    (dfBars : Option (List Bar)) : FrameState :=
  match dfBars with
  | none =>
    { zones := [], status := "success", message := "Zones generated.",
      atrValue := none, fetchFailed := true }
  | some [] =>
    { zones := [], status := "warning", message := "No bar data available.",
      atrValue := none, fetchFailed := false }
  | some bars =>
    let vpResult := calculateVolumeProfile bars 20
    let s1 : FrameState :=
      match vpResult with
      | none =>
        { zones := [], status := "partial_success",
          message := "VP calculation failed.", atrValue := none,
          fetchFailed := false }
      | some vp =>
        { zones := vpZonesOf tfKey vpInterval pbw vp, status := "success",
          message := "Zones generated.", atrValue := none, fetchFailed := false }
    let fibZones := calculateFibonacciLevels bars 50
    if fibZones = [] then
      { s1 with
        status := if s1.status = "success" then "warning" else s1.status,
        message :=
          if s1.message = "Zones generated." then "VP zones generated, no Fib zones."
          else if s1.message = "VP calculation failed." then s1.message
          else s1.message ++ " No Fib zones." }
    else
      { s1 with
        zones := (s1.zones ++ fibZones),
        message := if s1.status = "success" then "VP and Fib zones generated."
                   else s1.message }

/-- Step 3 of a timeframe iteration: the ATR fetch (parameter atrData models
fetch_atr: none = fetch error, some [] = no data points, and each item's
'atr' field is an Option; a missing/unparseable field raises inside float()
and is caught as a parse error).  The code's post-float() atr_value None
re-check is unreachable and not modelled. -/
def frameAtrStep (s : FrameState) (atrData : Option (List (Option ℚ))) : FrameState :=
  match atrData with
  | none => { s with fetchFailed := true }
  | some [] => s
  | some items =>
    match items.getLastD none with
    | none =>
      { s with
        status := if s.status = "success" then "partial_success" else s.status,
        message :=
          if s.message = "Zones generated." then "VP/Fib zones generated, ATR parse error."
          else s.message ++ " ATR parse error.",
        atrValue := none }
    | some q => { s with atrValue := some q }

/-- First half of step 4 of a timeframe iteration: ±1 ATR extension zones
around the last close of the bar frame, appended when an ATR value was
parsed and the bar frame is non-null and non-empty. -/
def frameAtrZonesStep (tfKey taInterval : String) (dfBars : Option (List Bar))
    (s : FrameState) : FrameState :=
  match s.atrValue, dfBars with
  | some atr, some (b :: bs) =>
    let basePrice := ((b :: bs).getLastD default).close
    { s with
      zones := s.zones ++
      [ { ztype := "TARGET_UPSIDE", name := tfKey.toUpper ++ " +1 ATR",
          level := some (roundQ 2 (basePrice + atr)),
          rangeStart := none, rangeEnd := none,
          source := "ATR Calculation (" ++ taInterval ++ ")" },
        { ztype := "TARGET_DOWNSIDE", name := tfKey.toUpper ++ " -1 ATR",
          level := some (roundQ 2 (basePrice - atr)),
          rangeStart := none, rangeEnd := none,
          source := "ATR Calculation (" ++ taInterval ++ ")" } ] }
  | _, _ => s

/-- Second half of step 4: previous-day high/low zones for the intraday
timeframes (parameter prevDayDf models the 1day fetch; none = fetch error;
fewer than two rows = skip). -/
def framePrevDayStep (tfKey : String) (prevDayDf : Option (List Bar))
    (s1 : FrameState) : FrameState :=
  if tfKey = "1m" ∨ tfKey = "5m" then
    match prevDayDf with
    | none => { s1 with fetchFailed := true }
    | some l =>
      if l.length < 2 then s1
      else
        let prevDayBar := l.getD (l.length - 2) default
        { s1 with
          zones := s1.zones ++
          [ { ztype := "RESISTANCE", name := "Previous Day High",
              level := some (roundQ 2 prevDayBar.high),
              rangeStart := none, rangeEnd := none,
              source := "Price Action (Daily Bar)" },
            { ztype := "SUPPORT", name := "Previous Day Low",
              level := some (roundQ 2 prevDayBar.low),
              rangeStart := none, rangeEnd := none,
              source := "Price Action (Daily Bar)" } ] }
  else s1

/-- Step 4 of a timeframe iteration: ATR extension zones, then previous-day
levels. -/
def frameExtraZonesStep (tfKey taInterval : String) (dfBars : Option (List Bar))
    (prevDayDf : Option (List Bar)) (s : FrameState) : FrameState :=
  framePrevDayStep tfKey prevDayDf (frameAtrZonesStep tfKey taInterval dfBars s)

/-- Final status/message assembly for one timeframe (lines 248-267 of
technical_zones_tool.py). -/
def frameFinalize (s : FrameState) : FrameOut :=
  if s.fetchFailed then
    { status := "error",
      message := "Critical fetch error for one or more data sources.",
      zones := s.zones }
  else if s.zones = [] then
    { status := "warning",
      message := "No technical zones could be generated for this timeframe.",
      zones := s.zones }
  else if s.status = "partial_success" then
    let partialMessages :=
      (if strContains s.message "VP calculation failed." then ["VP failed."] else [])
      ++ (if strContains s.message "No Fib zones." then ["No Fib zones."] else [])
      ++ (if strContains s.message "ATR error." ∨
             (strContains s.message "ATR parse error." ∧ s.atrValue = none)
          then ["ATR failed."] else [])
    if partialMessages ≠ [] then
      { status := s.status,
        message := "Some zones generated. Issues: " ++
          String.intercalate ", " partialMessages,
        zones := s.zones }
    else
      { status := s.status,
        message := "Zones generated successfully with minor issues.",
        zones := s.zones }
  else
    { status := s.status, message := "Zones generated successfully.",
      zones := s.zones }

/-- One whole timeframe iteration of financial_technical_zones, from the
three fetch results to the stored status/message/zones. -/
def frameResult (tfKey vpInterval taInterval : String) (pbw : ℚ)
    (dfBars : Option (List Bar)) (atrData : Option (List (Option ℚ)))
    (prevDayDf : Option (List Bar)) : FrameOut :=
  frameFinalize
    (frameExtraZonesStep tfKey taInterval dfBars prevDayDf
      (frameAtrStep (frameBarsStep tfKey vpInterval pbw dfBars) atrData))

/-! ## Theorems -/

section
attribute [local semireducible] Rat.inv Rat.mul Rat.add Rat.sub Rat.ofScientific

/-- Claim C4: on the three bars (h=100,l=98,v=1000), (h=101,l=99,v=500),
(h=104,l=102,v=1000) with min_gap_percentage = 0.1, detection returns one
bullish gap with gap_low = 100, gap_high = 102, gap_size = 2 and
gap_midpoint = 101 and no tests; appending the bar (h=103,l=100.5) yields
for that gap times_tested = 1, lowest_test = 100.5, highest_test = 102 and
filled_percentage = 75. -/
theorem c4_fvg_scenario :
    detectFvgs (1/10) c4bars3 "5m" 103 100 =
      [{ gapId := "5m_gap_2", gapType := "bullish", timeframe := "5m",
         gapHigh := 102, gapLow := 100, gapSize := 2, gapMidpoint := 101,
         ageMinutes := 2, timesTested := 0, lowestTest := none,
         highestTest := none, filledPercentage := 0,
         currentlyInsideGap := false }] ∧
    detectFvgs (1/10) (c4bars3 ++ [c4bar4]) "5m" 103 100 =
      [{ gapId := "5m_gap_2", gapType := "bullish", timeframe := "5m",
         gapHigh := 102, gapLow := 100, gapSize := 2, gapMidpoint := 101,
         ageMinutes := 2, timesTested := 1, lowestTest := some 100.5,
         highestTest := some 102, filledPercentage := 75,
         currentlyInsideGap := false }] := by
  exact ⟨by decide, by decide⟩

/-- Claim C5 is false on the code: with opening range [90, 100], current
price 80 (below the range) and post-window closes 101, 89, 89, 89, all three
bearish conditions hold (a close below 90·0.999, three closes below 90,
position below_range), yet no breakout is confirmed, because the single
close above 100·1.001 sends control into the bullish branch and the bearish
test is an elif. -/
theorem c5_counterexample :
    orbBreakout 80 100 90 [101, 89, 89, 89] = (false, none) ∧
    (([101, 89, 89, 89] : List ℚ).any (fun c => decide (c < 90 * (999/1000)))) = true ∧
    3 ≤ (([101, 89, 89, 89] : List ℚ).filter (fun c => decide (c < 90))).length ∧
    orbPosition 80 100 90 = "below_range" := by
  refine ⟨by decide, by decide, by decide, by decide⟩

end

/-- Claim C5, amended: a bullish breakout is confirmed iff the three bullish
conditions hold; a bearish breakout is confirmed iff the three bearish
conditions hold AND no post-window close exceeded the bullish 0.1% buffer
(the bearish check is an elif of the bullish buffer test). -/
theorem c5_breakout_confirmation_amended (cur oh ol : ℚ) (pcs : List ℚ) :
    (orbBreakout cur oh ol pcs = (true, some "bullish") ↔
      ((∃ c ∈ pcs, oh * (1001/1000) < c) ∧
       3 ≤ (pcs.filter (fun c => decide (oh < c))).length ∧
       orbPosition cur oh ol = "above_range")) ∧
    (orbBreakout cur oh ol pcs = (true, some "bearish") ↔
      ((¬ ∃ c ∈ pcs, oh * (1001/1000) < c) ∧
       (∃ c ∈ pcs, c < ol * (999/1000)) ∧
       3 ≤ (pcs.filter (fun c => decide (c < ol))).length ∧
       orbPosition cur oh ol = "below_range")) := by
  unfold orbBreakout
  split_ifs <;>
    (try simp_all [List.any_eq_true, decide_eq_true_iff]) <;>
    split_ifs <;>
    simp_all [List.any_eq_true, decide_eq_true_iff]

/-- The bars step fails hard exactly when the bar fetch returned null. -/
theorem frameBarsStep_fetchFailed (tfKey vpInterval : String) (pbw : ℚ)
    (dfBars : Option (List Bar)) :
    (frameBarsStep tfKey vpInterval pbw dfBars).fetchFailed = dfBars.isNone := by
  rcases dfBars with _ | (_ | ⟨b, bs⟩)
  · rfl
  · rfl
  · simp only [frameBarsStep, Option.isNone_some]
    split <;> split <;> rfl

/-- The bars step only produces the statuses success, partial_success or
warning. -/
theorem frameBarsStep_status (tfKey vpInterval : String) (pbw : ℚ)
    (dfBars : Option (List Bar)) :
    (frameBarsStep tfKey vpInterval pbw dfBars).status = "success" ∨
    (frameBarsStep tfKey vpInterval pbw dfBars).status = "partial_success" ∨
    (frameBarsStep tfKey vpInterval pbw dfBars).status = "warning" := by
  rcases dfBars with _ | (_ | ⟨b, bs⟩)
  · left; rfl
  · right; right; rfl
  · simp only [frameBarsStep]
    split <;> split <;> simp

/-- The ATR step adds a hard failure exactly when the ATR fetch returned
null. -/
theorem frameAtrStep_fetchFailed (s : FrameState) (atrData : Option (List (Option ℚ))) :
    (frameAtrStep s atrData).fetchFailed = (s.fetchFailed || atrData.isNone) := by
  rcases atrData with _ | (_ | ⟨i, is⟩)
  · simp [frameAtrStep]
  · simp [frameAtrStep]
  · simp only [frameAtrStep, Option.isNone_some, Bool.or_false]
    split <;> rfl

/-- The ATR step either keeps the status or degrades it to partial_success. -/
theorem frameAtrStep_status (s : FrameState) (atrData : Option (List (Option ℚ))) :
    (frameAtrStep s atrData).status = s.status ∨
    (frameAtrStep s atrData).status = "partial_success" := by
  rcases atrData with _ | (_ | ⟨i, is⟩)
  · left; rfl
  · left; rfl
  · simp only [frameAtrStep]
    split
    · split <;> simp
    · left; rfl

/-- The ATR-zones half-step changes neither the failure flag nor the
status. -/
theorem frameAtrZonesStep_state (tfKey taInterval : String)
    (dfBars : Option (List Bar)) (s : FrameState) :
    (frameAtrZonesStep tfKey taInterval dfBars s).fetchFailed = s.fetchFailed ∧
    (frameAtrZonesStep tfKey taInterval dfBars s).status = s.status := by
  unfold frameAtrZonesStep
  split <;> exact ⟨rfl, rfl⟩

/-- The previous-day half-step adds a hard failure exactly when the
timeframe is intraday and the previous-day fetch returned null. -/
theorem framePrevDayStep_fetchFailed (tfKey : String)
    (prevDayDf : Option (List Bar)) (s1 : FrameState) :
    (framePrevDayStep tfKey prevDayDf s1).fetchFailed =
      (s1.fetchFailed || (decide (tfKey = "1m" ∨ tfKey = "5m") && prevDayDf.isNone)) := by
  unfold framePrevDayStep
  split_ifs with htf
  · rcases prevDayDf with _ | l
    · simp [decide_eq_true htf]
    · by_cases hl : l.length < 2 <;> simp [hl]
  · simp [decide_eq_false htf]

/-- The previous-day half-step never changes the status. -/
theorem framePrevDayStep_status (tfKey : String)
    (prevDayDf : Option (List Bar)) (s1 : FrameState) :
    (framePrevDayStep tfKey prevDayDf s1).status = s1.status := by
  unfold framePrevDayStep
  split_ifs with htf
  · rcases prevDayDf with _ | l
    · rfl
    · by_cases hl : l.length < 2 <;> simp [hl]
  · rfl

/-- The extra-zones step adds a hard failure exactly when the timeframe is
intraday and the previous-day fetch returned null. -/
theorem frameExtraZonesStep_fetchFailed (tfKey taInterval : String)
    (dfBars : Option (List Bar)) (prevDayDf : Option (List Bar)) (s : FrameState) :
    (frameExtraZonesStep tfKey taInterval dfBars prevDayDf s).fetchFailed =
      (s.fetchFailed || (decide (tfKey = "1m" ∨ tfKey = "5m") && prevDayDf.isNone)) := by
  unfold frameExtraZonesStep
  rw [framePrevDayStep_fetchFailed, (frameAtrZonesStep_state tfKey taInterval dfBars s).1]

/-- The extra-zones step never changes the status. -/
theorem frameExtraZonesStep_status (tfKey taInterval : String)
    (dfBars : Option (List Bar)) (prevDayDf : Option (List Bar)) (s : FrameState) :
    (frameExtraZonesStep tfKey taInterval dfBars prevDayDf s).status = s.status := by
  unfold frameExtraZonesStep
  rw [framePrevDayStep_status, (frameAtrZonesStep_state tfKey taInterval dfBars s).2]

/-- Finalization reports error exactly on a hard fetch failure, provided the
running status is one of the three non-error statuses. -/
theorem frameFinalize_status_error (s : FrameState)
    (hs : s.status = "success" ∨ s.status = "partial_success" ∨ s.status = "warning") :
    ((frameFinalize s).status = "error" ↔ s.fetchFailed = true) := by
  rcases hs with h | h | h <;>
    (unfold frameFinalize; split_ifs <;> simp_all)

/-- Finalization leaves the status as error, warning or the running status. -/
theorem frameFinalize_status_cases (s : FrameState) :
    (frameFinalize s).status = "error" ∨ (frameFinalize s).status = "warning" ∨
    (frameFinalize s).status = s.status := by
  unfold frameFinalize
  split_ifs <;> simp

/-- Claim C2 is false on the code: a timeframe whose bar fetch succeeded
(it returned an empty frame, not null) still ends with status "error" when
the ATR fetch returns null. -/
theorem c2_counterexample :
    (frameResult "1m" "1min" "1min" 0 (some []) none (some [])).status = "error" ∧
    some ([] : List Bar) ≠ none := by
  exact ⟨by rfl, by simp⟩

/-- Claim C2, amended: a timeframe's final status is "error" iff at least
one of the three upstream fetches returned null: the bar fetch, the ATR
fetch, or (for the intraday timeframes "1m"/"5m") the previous-day fetch;
when all three fetches return non-null, every other missing piece only
leaves the status at success, partial_success or warning. -/
theorem c2_frame_status_amended (tfKey vpInterval taInterval : String) (pbw : ℚ)
    (dfBars : Option (List Bar)) (atrData : Option (List (Option ℚ)))
    (prevDayDf : Option (List Bar)) :
    ((frameResult tfKey vpInterval taInterval pbw dfBars atrData prevDayDf).status = "error" ↔
      (dfBars = none ∨ atrData = none ∨
        ((tfKey = "1m" ∨ tfKey = "5m") ∧ prevDayDf = none))) ∧
    (dfBars ≠ none → atrData ≠ none →
      ¬ ((tfKey = "1m" ∨ tfKey = "5m") ∧ prevDayDf = none) →
      ((frameResult tfKey vpInterval taInterval pbw dfBars atrData prevDayDf).status = "success" ∨
       (frameResult tfKey vpInterval taInterval pbw dfBars atrData prevDayDf).status = "partial_success" ∨
       (frameResult tfKey vpInterval taInterval pbw dfBars atrData prevDayDf).status = "warning")) := by
  have hs0 := frameBarsStep_status tfKey vpInterval pbw dfBars
  have hs1 := frameAtrStep_status (frameBarsStep tfKey vpInterval pbw dfBars) atrData
  have hs2 := frameExtraZonesStep_status tfKey taInterval dfBars prevDayDf
    (frameAtrStep (frameBarsStep tfKey vpInterval pbw dfBars) atrData)
  have hsmem : (frameExtraZonesStep tfKey taInterval dfBars prevDayDf
      (frameAtrStep (frameBarsStep tfKey vpInterval pbw dfBars) atrData)).status = "success" ∨
      (frameExtraZonesStep tfKey taInterval dfBars prevDayDf
      (frameAtrStep (frameBarsStep tfKey vpInterval pbw dfBars) atrData)).status = "partial_success" ∨
      (frameExtraZonesStep tfKey taInterval dfBars prevDayDf
      (frameAtrStep (frameBarsStep tfKey vpInterval pbw dfBars) atrData)).status = "warning" := by
    rw [hs2]
    rcases hs1 with h | h
    · rw [h]; exact hs0
    · rw [h]; right; left; rfl
  have herr := frameFinalize_status_error _ hsmem
  have hff : (frameExtraZonesStep tfKey taInterval dfBars prevDayDf
      (frameAtrStep (frameBarsStep tfKey vpInterval pbw dfBars) atrData)).fetchFailed =
      (dfBars.isNone || atrData.isNone ||
        (decide (tfKey = "1m" ∨ tfKey = "5m") && prevDayDf.isNone)) := by
    rw [frameExtraZonesStep_fetchFailed, frameAtrStep_fetchFailed,
      frameBarsStep_fetchFailed]
  constructor
  · rw [frameResult, herr, hff]
    simp only [Bool.or_eq_true, Bool.and_eq_true, decide_eq_true_iff,
      Option.isNone_iff_eq_none]
    exact or_assoc
  · intro hd ha hp
    have hne : ¬ (frameResult tfKey vpInterval taInterval pbw dfBars atrData prevDayDf).status = "error" := by
      rw [frameResult, herr, hff]
      simp only [Bool.or_eq_true, Bool.and_eq_true, decide_eq_true_iff,
        Option.isNone_iff_eq_none]
      push_neg at hp ⊢
      exact ⟨⟨hd, ha⟩, fun h1 => hp h1⟩
    have hcases := frameFinalize_status_cases
      (frameExtraZonesStep tfKey taInterval dfBars prevDayDf
        (frameAtrStep (frameBarsStep tfKey vpInterval pbw dfBars) atrData))
    rw [frameResult] at hne ⊢
    rcases hcases with h | h | h
    · exact absurd h hne
    · right; right; exact h
    · rw [h]; exact hsmem

/-- Witness for the amended claim C2: with every fetch succeeding on a "1d"
frame, the status is one of the three non-error statuses. -/
theorem c2_amended_witness :
    (frameResult "1d" "1day" "1day" 0 (some []) (some []) (some [])).status = "success" ∨
    (frameResult "1d" "1day" "1day" 0 (some []) (some []) (some [])).status = "partial_success" ∨
    (frameResult "1d" "1day" "1day" 0 (some []) (some []) (some [])).status = "warning" :=
  (c2_frame_status_amended "1d" "1day" "1day" 0 (some []) (some []) (some [])).2
    (by simp) (by simp) (by simp)

instance : IsTotal GapInfo (fun a b => a.distance ≤ b.distance) :=
  ⟨fun a b => le_total a.distance b.distance⟩

instance : IsTrans GapInfo (fun a b => a.distance ≤ b.distance) :=
  ⟨fun _ _ _ hab hbc => le_trans hab hbc⟩

/-- Claim C7: every entry of the above-price result comes from a gap with
gap_low strictly above the price, every entry of the below-price result
from a gap with gap_high strictly below it (so a straddling gap feeds
neither list); conversely every qualifying gap's info is in the
corresponding sorted list; both outputs are sorted by ascending recorded
distance and truncated to max_gaps entries. -/
theorem c7_nearest_gaps (gaps : List FairValueGap) (currentPrice : ℚ) (maxGaps : ℕ) :
    (∀ x ∈ (findNearestGaps gaps currentPrice maxGaps).1,
      ∃ g ∈ gaps, currentPrice < g.gapLow ∧ x = gapInfoOf currentPrice g) ∧
    (∀ x ∈ (findNearestGaps gaps currentPrice maxGaps).2,
      ∃ g ∈ gaps, ¬ currentPrice < g.gapLow ∧ g.gapHigh < currentPrice ∧
        x = gapInfoOf currentPrice g) ∧
    (∀ g ∈ gaps, currentPrice < g.gapLow →
      gapInfoOf currentPrice g ∈ sortedGapsAbove gaps currentPrice) ∧
    (∀ g ∈ gaps, ¬ currentPrice < g.gapLow → g.gapHigh < currentPrice →
      gapInfoOf currentPrice g ∈ sortedGapsBelow gaps currentPrice) ∧
    List.Pairwise (fun a b => a.distance ≤ b.distance)
      (findNearestGaps gaps currentPrice maxGaps).1 ∧
    List.Pairwise (fun a b => a.distance ≤ b.distance)
      (findNearestGaps gaps currentPrice maxGaps).2 ∧
    (findNearestGaps gaps currentPrice maxGaps).1.length ≤ maxGaps ∧
    (findNearestGaps gaps currentPrice maxGaps).2.length ≤ maxGaps := by
  refine ⟨?_, ?_, ?_, ?_, ?_, ?_, ?_, ?_⟩
  · intro x hx
    have hx' : x ∈ sortedGapsAbove gaps currentPrice :=
      List.take_subset _ _ hx
    have hx'' : x ∈ gapsAboveOf gaps currentPrice :=
      (List.perm_insertionSort _ _).subset hx'
    rcases List.mem_map.mp hx'' with ⟨g, hg, rfl⟩
    rcases List.mem_filter.mp hg with ⟨hgm, hcond⟩
    exact ⟨g, hgm, of_decide_eq_true hcond, rfl⟩
  · intro x hx
    have hx' : x ∈ sortedGapsBelow gaps currentPrice :=
      List.take_subset _ _ hx
    have hx'' : x ∈ gapsBelowOf gaps currentPrice :=
      (List.perm_insertionSort _ _).subset hx'
    rcases List.mem_map.mp hx'' with ⟨g, hg, rfl⟩
    rcases List.mem_filter.mp hg with ⟨hgm, hcond⟩
    rcases of_decide_eq_true hcond with ⟨h1, h2⟩
    exact ⟨g, hgm, h1, h2, rfl⟩
  · intro g hg hcond
    have : gapInfoOf currentPrice g ∈ gapsAboveOf gaps currentPrice :=
      List.mem_map_of_mem _ (List.mem_filter.mpr ⟨hg, decide_eq_true hcond⟩)
    exact ((List.perm_insertionSort _ _).mem_iff).mpr this
  · intro g hg h1 h2
    have : gapInfoOf currentPrice g ∈ gapsBelowOf gaps currentPrice :=
      List.mem_map_of_mem _ (List.mem_filter.mpr ⟨hg, decide_eq_true ⟨h1, h2⟩⟩)
    exact ((List.perm_insertionSort _ _).mem_iff).mpr this
  · refine List.Pairwise.sublist (List.take_sublist _ _) ?_
    unfold sortedGapsAbove
    exact List.sorted_insertionSort (fun (a b : GapInfo) => a.distance ≤ b.distance) _
  · refine List.Pairwise.sublist (List.take_sublist _ _) ?_
    unfold sortedGapsBelow
    exact List.sorted_insertionSort (fun (a b : GapInfo) => a.distance ≤ b.distance) _
  · exact List.length_take_le _ _
  · exact List.length_take_le _ _

/-- A gap lying strictly above price 100. -/
def c7gapAbove : FairValueGap :=
  { gapId := "5m_gap_7", gapType := "bullish", timeframe := "5m",
    gapHigh := 120, gapLow := 110, gapSize := 10, gapMidpoint := 115,
    ageMinutes := 7, timesTested := 0, lowestTest := none, highestTest := none,
    filledPercentage := 0, currentlyInsideGap := false }

/-- A gap straddling price 100. -/
def c7gapStraddle : FairValueGap :=
  { gapId := "5m_gap_4", gapType := "bullish", timeframe := "5m",
    gapHigh := 110, gapLow := 90, gapSize := 20, gapMidpoint := 100,
    ageMinutes := 4, timesTested := 1, lowestTest := some 95,
    highestTest := some 105, filledPercentage := 50,
    currentlyInsideGap := true }

/-- The two-gap input used to instantiate claim C7. -/
def c7gaps : List FairValueGap := [c7gapAbove, c7gapStraddle]

section
attribute [local semireducible] Rat.inv Rat.mul Rat.add Rat.sub Rat.ofScientific

/-- Witness for claim C7 at a concrete input: the above-price entry of the
query over a strictly-above gap and a straddling gap traces back to a gap
with gap_low above the price. -/
theorem c7_witness :
    ∃ g ∈ c7gaps, (100:ℚ) < g.gapLow ∧
      gapInfoOf 100 c7gapAbove = gapInfoOf 100 g :=
  (c7_nearest_gaps c7gaps 100 3).1 (gapInfoOf 100 c7gapAbove) (by decide)

end

instance : IsTotal (ℕ × ℚ) (fun a b => a.1 < b.1 ∨ (a.1 = b.1 ∧ a.2 ≤ b.2)) := by
  constructor
  intro a b
  rcases lt_trichotomy a.1 b.1 with h | h | h
  · exact Or.inl (Or.inl h)
  · rcases le_total a.2 b.2 with h2 | h2
    · exact Or.inl (Or.inr ⟨h, h2⟩)
    · exact Or.inr (Or.inr ⟨h.symm, h2⟩)
  · exact Or.inr (Or.inl h)

instance : IsTrans (ℕ × ℚ) (fun a b => a.1 < b.1 ∨ (a.1 = b.1 ∧ a.2 ≤ b.2)) := by
  constructor
  intro a b c hab hbc
  rcases hab with h1 | ⟨h1, h1'⟩
  · rcases hbc with h2 | ⟨h2, h2'⟩
    · exact Or.inl (h1.trans h2)
    · exact Or.inl (h2 ▸ h1)
  · rcases hbc with h2 | ⟨h2, h2'⟩
    · exact Or.inl (h1 ▸ h2)
    · exact Or.inr ⟨h1.trans h2, h1'.trans h2'⟩

/-- In a list pairwise-sorted by period, the head's period is minimal. -/
theorem pairwise_headD_period_le (l : List (ℕ × ℚ))
    (hl : List.Pairwise (fun a b : ℕ × ℚ => a.1 ≤ b.1) l) :
    ∀ x ∈ l, (l.headD (0, 0)).1 ≤ x.1 := by
  cases l with
  | nil => intro x hx; cases hx
  | cons a t =>
    intro x hx
    rcases List.mem_cons.mp hx with rfl | hx'
    · exact le_refl _
    · exact List.rel_of_pairwise_cons hl hx'

/-- In a list pairwise-sorted by period, the last entry's period is
maximal (for any default). -/
theorem pairwise_period_le_getLastD :
    ∀ (l : List (ℕ × ℚ)) (d : ℕ × ℚ),
      List.Pairwise (fun a b : ℕ × ℚ => a.1 ≤ b.1) l →
      ∀ x ∈ l, x.1 ≤ (l.getLastD d).1 := by
  intro l
  induction l with
  | nil => intro d _ x hx; cases hx
  | cons a t ih =>
    intro d hp x hx
    rw [List.getLastD_cons]
    rcases List.mem_cons.mp hx with rfl | hx'
    · cases t with
      | nil => simp [List.getLastD]
      | cons b t' =>
        have hab : x.1 ≤ b.1 :=
          List.rel_of_pairwise_cons hp (List.mem_cons_self b t')
        exact le_trans hab (ih x hp.of_cons b (List.mem_cons_self b t'))
    · exact ih a hp.of_cons x hx'

/-- Round-half-even fixes integers. -/
theorem rhe_intCast (n : ℤ) : rhe (n : ℚ) = n := by
  unfold rhe
  rw [Int.floor_intCast, sub_self]
  norm_num

/-- Round-half-even never exceeds floor + 1. -/
theorem rhe_le_floor_add_one (x : ℚ) : rhe x ≤ ⌊x⌋ + 1 := by
  unfold rhe
  split_ifs <;> omega

/-- Round-half-even is at least the floor. -/
theorem floor_le_rhe (x : ℚ) : ⌊x⌋ ≤ rhe x := by
  unfold rhe
  split_ifs <;> omega

/-- Round-half-even is monotone. -/
theorem rhe_le_rhe {x y : ℚ} (h : x ≤ y) : rhe x ≤ rhe y := by
  rcases eq_or_lt_of_le (Int.floor_le_floor h) with hfe | hlt
  · unfold rhe
    rw [← hfe]
    have hxy : x - (⌊x⌋ : ℚ) ≤ y - (⌊x⌋ : ℚ) := by linarith
    split_ifs <;> first | omega | (exfalso; linarith)
  · calc rhe x ≤ ⌊x⌋ + 1 := rhe_le_floor_add_one x
      _ ≤ ⌊y⌋ := by omega
      _ ≤ rhe y := floor_le_rhe y

/-- roundQ is monotone. -/
theorem roundQ_mono (p : ℕ) {x y : ℚ} (h : x ≤ y) : roundQ p x ≤ roundQ p y := by
  unfold roundQ
  have hp : (0 : ℚ) < 10 ^ p := by positivity
  have hr : ((rhe (x * 10 ^ p) : ℚ)) ≤ ((rhe (y * 10 ^ p) : ℚ)) := by
    exact_mod_cast rhe_le_rhe (mul_le_mul_of_nonneg_right h (le_of_lt hp))
  gcongr

/-- roundQ fixes integers. -/
theorem roundQ_intCast (p : ℕ) (n : ℤ) : roundQ p (n : ℚ) = n := by
  unfold roundQ
  have h : ((n : ℚ) * 10 ^ p) = ((n * 10 ^ p : ℤ) : ℚ) := by push_cast; ring
  rw [h, rhe_intCast]
  have hp : (10 : ℚ) ^ p ≠ 0 := by positivity
  push_cast
  field_simp

/-- Claim C8: with at least two valid periods, squeeze detection sorts the
(period, range) pairs ascending by period (a permutation of the input whose
head/last carry the minimal/maximal period), reports contracting iff each
range is ≤ its predecessor in period order, computes the compression ratio
as last range over first range (1 when the first range is 0), reports its
rounding, and detects a squeeze iff contracting holds and the unrounded
ratio is below 0.7. -/
theorem c8_squeeze_detection (entries : List (ℕ × ℚ)) (h2 : 2 ≤ entries.length) :
    List.Sorted (fun a b : ℕ × ℚ => a.1 ≤ b.1) (sortedSqueezeEntries entries) ∧
    (sortedSqueezeEntries entries).Perm entries ∧
    (∀ x ∈ entries, ((sortedSqueezeEntries entries).headD (0, 0)).1 ≤ x.1 ∧
      x.1 ≤ ((sortedSqueezeEntries entries).getLastD (0, 0)).1) ∧
    ((detectOrbSqueeze entries).contractingRanges = some true ↔
      List.Chain' (fun a b : ℚ => b ≤ a) (squeezeRanges entries)) ∧
    (0 < (squeezeRanges entries).headD 0 →
      squeezeCompression entries =
        (squeezeRanges entries).getLastD 0 / (squeezeRanges entries).headD 0) ∧
    ((squeezeRanges entries).headD 0 = 0 → squeezeCompression entries = 1) ∧
    (detectOrbSqueeze entries).compression = some (roundQ 2 (squeezeCompression entries)) ∧
    ((detectOrbSqueeze entries).squeezeDetected = true ↔
      (List.Chain' (fun a b : ℚ => b ≤ a) (squeezeRanges entries) ∧
       squeezeCompression entries < 7/10)) := by
  have hnot : ¬ entries.length < 2 := by omega
  have hsortlex := List.sorted_insertionSort
    (fun a b : ℕ × ℚ => a.1 < b.1 ∨ (a.1 = b.1 ∧ a.2 ≤ b.2)) entries
  have hsorted : List.Sorted (fun a b : ℕ × ℚ => a.1 ≤ b.1) (sortedSqueezeEntries entries) := by
    unfold sortedSqueezeEntries
    exact hsortlex.imp (fun hab => by
      rcases hab with h | ⟨h, _⟩
      · exact le_of_lt h
      · exact le_of_eq h)
  have hperm : (sortedSqueezeEntries entries).Perm entries := by
    unfold sortedSqueezeEntries
    exact List.perm_insertionSort _ _
  refine ⟨hsorted, hperm, ?_, ?_, ?_, ?_, ?_, ?_⟩
  · intro x hx
    have hx' : x ∈ sortedSqueezeEntries entries := hperm.mem_iff.mpr hx
    exact ⟨pairwise_headD_period_le _ hsorted x hx',
      pairwise_period_le_getLastD _ _ hsorted x hx'⟩
  · simp only [detectOrbSqueeze, if_neg hnot, squeezeRanges, Option.some.injEq,
      decide_eq_true_eq]
  · intro hpos
    unfold squeezeCompression
    rw [if_pos hpos]
  · intro hzero
    unfold squeezeCompression
    rw [hzero, if_neg (lt_irrefl 0)]
  · simp only [detectOrbSqueeze, if_neg hnot]
  · simp only [detectOrbSqueeze, if_neg hnot, Bool.and_eq_true, decide_eq_true_eq,
      squeezeRanges]

/-- The (15,1/2), (5,1), (30,1/4) input used to instantiate claim C8. -/
def c8entries : List (ℕ × ℚ) := [(15, 1/2), (5, 1), (30, 1/4)]

section
attribute [local semireducible] Rat.inv Rat.mul Rat.add Rat.sub Rat.ofScientific

/-- Witness for claim C8: three contracting periods with compression 1/4
are detected as a squeeze. -/
theorem c8_witness :
    2 ≤ c8entries.length ∧ (detectOrbSqueeze c8entries).squeezeDetected = true :=
  ⟨by decide,
   (c8_squeeze_detection c8entries (by decide)).2.2.2.2.2.2.2.mpr
     ⟨by
        have hr : squeezeRanges c8entries = [1, 1/2, 1/4] := by decide
        rw [hr, List.chain'_cons, List.chain'_cons]
        exact ⟨by decide, by decide, List.chain'_singleton _⟩,
      by decide⟩⟩

end

/-- Invariant of the gap-interaction scan state (tests, lowest, highest):
either nothing was tested and both extremes are unset, or at least one bar
tested the gap and the extremes are set, ordered, and clamped inside the
gap. -/
def gapScanInv (gapLow gapHigh : ℚ) (s : ℕ × Option ℚ × Option ℚ) : Prop :=
  (s.1 = 0 ∧ s.2.1 = none ∧ s.2.2 = none) ∨
  (0 < s.1 ∧ ∃ l h, s.2.1 = some l ∧ s.2.2 = some h ∧
    gapLow ≤ l ∧ l ≤ h ∧ h ≤ gapHigh)

/-- One step of the interaction scan preserves the invariant, for a
well-formed bar (low ≤ high) and a non-degenerate gap. -/
theorem gapTestStep_inv (gapLow gapHigh : ℚ) (hgap : gapLow ≤ gapHigh)
    (b : Bar) (hb : b.low ≤ b.high) (s : ℕ × Option ℚ × Option ℚ)
    (hs : gapScanInv gapLow gapHigh s) :
    gapScanInv gapLow gapHigh (gapTestStep gapLow gapHigh s b) := by
  obtain ⟨t, lo, hi⟩ := s
  unfold gapTestStep
  split_ifs with htest
  · obtain ⟨hl, hh⟩ := htest
    have htl : gapLow ≤ max b.low gapLow := le_max_right _ _
    have hth : min b.high gapHigh ≤ gapHigh := min_le_right _ _
    have hlth : max b.low gapLow ≤ min b.high gapHigh :=
      max_le (le_min hb hl) (le_min hh hgap)
    rcases hs with ⟨ht, hlo, hhi⟩ | ⟨ht, l, h, hlo, hhi, h1, h2, h3⟩
    · subst hlo; subst hhi
      exact Or.inr ⟨Nat.succ_pos t, max b.low gapLow, min b.high gapHigh,
        rfl, rfl, htl, hlth, hth⟩
    · subst hlo; subst hhi
      refine Or.inr ⟨Nat.succ_pos t, min l (max b.low gapLow),
        max h (min b.high gapHigh), rfl, rfl, le_min h1 htl, ?_, max_le h3 hth⟩
      calc min l (max b.low gapLow) ≤ l := min_le_left _ _
        _ ≤ h := h2
        _ ≤ max h (min b.high gapHigh) := le_max_left _ _
  · exact hs

/-- The whole interaction scan preserves the invariant. -/
theorem foldl_gapTestStep_inv (gapLow gapHigh : ℚ) (hgap : gapLow ≤ gapHigh)
    (bars : List Bar) (hwf : ∀ b ∈ bars, b.low ≤ b.high)
    (s : ℕ × Option ℚ × Option ℚ) (hs : gapScanInv gapLow gapHigh s) :
    gapScanInv gapLow gapHigh (bars.foldl (gapTestStep gapLow gapHigh) s) := by
  induction bars generalizing s with
  | nil => exact hs
  | cons b t ih =>
    exact ih (fun x hx => hwf x (List.mem_cons_of_mem b hx)) _
      (gapTestStep_inv gapLow gapHigh hgap b (hwf b (List.mem_cons_self b t)) s hs)

/-- Extending the scan never decreases the test count, never raises the
recorded lowest test, and never lowers the recorded highest test. -/
theorem foldl_gapTestStep_extend (gapLow gapHigh : ℚ)
    (ext : List Bar) (s : ℕ × Option ℚ × Option ℚ) :
    s.1 ≤ (ext.foldl (gapTestStep gapLow gapHigh) s).1 ∧
    (∀ l, s.2.1 = some l → ∃ l', (ext.foldl (gapTestStep gapLow gapHigh) s).2.1 = some l' ∧ l' ≤ l) ∧
    (∀ h, s.2.2 = some h → ∃ h', (ext.foldl (gapTestStep gapLow gapHigh) s).2.2 = some h' ∧ h ≤ h') := by
  induction ext generalizing s with
  | nil => exact ⟨le_refl _, fun l hl => ⟨l, hl, le_refl l⟩, fun h hh => ⟨h, hh, le_refl h⟩⟩
  | cons b t ih =>
    obtain ⟨ih1, ih2, ih3⟩ := ih (gapTestStep gapLow gapHigh s b)
    have hstep1 : s.1 ≤ (gapTestStep gapLow gapHigh s b).1 := by
      obtain ⟨ts, los, his⟩ := s
      unfold gapTestStep
      split_ifs <;> simp
    have hstep2 : ∀ l, s.2.1 = some l →
        ∃ l', (gapTestStep gapLow gapHigh s b).2.1 = some l' ∧ l' ≤ l := by
      obtain ⟨ts, los, his⟩ := s
      intro l hl
      unfold gapTestStep
      split_ifs with htest
      · subst hl
        exact ⟨min l (max b.low gapLow), rfl, min_le_left _ _⟩
      · exact ⟨l, hl, le_refl l⟩
    have hstep3 : ∀ h, s.2.2 = some h →
        ∃ h', (gapTestStep gapLow gapHigh s b).2.2 = some h' ∧ h ≤ h' := by
      obtain ⟨ts, los, his⟩ := s
      intro h hh
      unfold gapTestStep
      split_ifs with htest
      · subst hh
        exact ⟨max h (min b.high gapHigh), rfl, le_max_left _ _⟩
      · exact ⟨h, hh, le_refl h⟩
    refine ⟨le_trans hstep1 ih1, ?_, ?_⟩
    · intro l hl
      obtain ⟨l1, hl1, hle1⟩ := hstep2 l hl
      obtain ⟨l2, hl2, hle2⟩ := ih2 l1 hl1
      exact ⟨l2, hl2, le_trans hle2 hle1⟩
    · intro h hh
      obtain ⟨h1, hh1, hle1⟩ := hstep3 h hh
      obtain ⟨h2, hh2, hle2⟩ := ih3 h1 hh1
      exact ⟨h2, hh2, le_trans hle1 hle2⟩

/-- The interaction results satisfy the scan invariant, and the fill
percentage formula behaves as claimed. -/
theorem analyzeGapInteraction_cases (gapLow gapHigh gapSize : ℚ)
    (hgap : gapLow ≤ gapHigh) (hist : List Bar)
    (hwf : ∀ b ∈ hist, b.low ≤ b.high) (cur : ℚ) :
    ((analyzeGapInteraction gapLow gapHigh gapSize hist cur).timesTested = 0 ∧
     (analyzeGapInteraction gapLow gapHigh gapSize hist cur).lowestTest = none ∧
     (analyzeGapInteraction gapLow gapHigh gapSize hist cur).highestTest = none ∧
     (analyzeGapInteraction gapLow gapHigh gapSize hist cur).filledPercentage = 0) ∨
    (0 < (analyzeGapInteraction gapLow gapHigh gapSize hist cur).timesTested ∧
     ∃ l h, (analyzeGapInteraction gapLow gapHigh gapSize hist cur).lowestTest = some l ∧
       (analyzeGapInteraction gapLow gapHigh gapSize hist cur).highestTest = some h ∧
       gapLow ≤ l ∧ l ≤ h ∧ h ≤ gapHigh ∧
       (analyzeGapInteraction gapLow gapHigh gapSize hist cur).filledPercentage =
         min ((h - l) / gapSize * 100) 100) := by
  unfold analyzeGapInteraction
  split_ifs with hemp
  · exact Or.inl ⟨rfl, rfl, rfl, rfl⟩
  · have hinv := foldl_gapTestStep_inv gapLow gapHigh hgap hist hwf
      (0, none, none) (Or.inl ⟨rfl, rfl, rfl⟩)
    rcases hinv with ⟨ht, hlo, hhi⟩ | ⟨ht, l, h, hlo, hhi, h1, h2, h3⟩
    · refine Or.inl ⟨ht, hlo, hhi, ?_⟩
      simp only [ht, lt_irrefl, if_false]
    · refine Or.inr ⟨ht, l, h, hlo, hhi, h1, h2, h3, ?_⟩
      simp only [if_pos ht, hlo, hhi]

/-- Extending the post-gap history never decreases the test count, never
raises the recorded lowest test and never lowers the recorded highest
test. -/
theorem analyzeGapInteraction_extend_fields (gapLow gapHigh gapSize cur : ℚ)
    (hist ext : List Bar) (hemp : hist ≠ []) :
    (analyzeGapInteraction gapLow gapHigh gapSize hist cur).timesTested ≤
      (analyzeGapInteraction gapLow gapHigh gapSize (hist ++ ext) cur).timesTested ∧
    (∀ l, (analyzeGapInteraction gapLow gapHigh gapSize hist cur).lowestTest = some l →
      ∃ l', (analyzeGapInteraction gapLow gapHigh gapSize (hist ++ ext) cur).lowestTest = some l' ∧ l' ≤ l) ∧
    (∀ h, (analyzeGapInteraction gapLow gapHigh gapSize hist cur).highestTest = some h →
      ∃ h', (analyzeGapInteraction gapLow gapHigh gapSize (hist ++ ext) cur).highestTest = some h' ∧ h ≤ h') := by
  have hempa : hist ++ ext ≠ [] := fun hc => hemp (List.append_eq_nil.mp hc).1
  simp only [analyzeGapInteraction, if_neg hemp, if_neg hempa, List.foldl_append]
  exact foldl_gapTestStep_extend gapLow gapHigh ext
    (hist.foldl (gapTestStep gapLow gapHigh) (0, none, none))

/-- Claim C6: for a detected gap (strictly positive size gap_high - gap_low)
and well-formed post-gap bars, extending the history never decreases the
fill percentage, which always lies in [0, 100]. -/
theorem c6_filled_percentage_monotone (gapLow gapHigh gapSize cur : ℚ)
    (hist ext : List Bar)
    (hgap : gapLow < gapHigh) (hgs : gapSize = gapHigh - gapLow)
    (hwf : ∀ b ∈ hist ++ ext, b.low ≤ b.high) :
    (analyzeGapInteraction gapLow gapHigh gapSize hist cur).filledPercentage ≤
      (analyzeGapInteraction gapLow gapHigh gapSize (hist ++ ext) cur).filledPercentage ∧
    0 ≤ (analyzeGapInteraction gapLow gapHigh gapSize hist cur).filledPercentage ∧
    (analyzeGapInteraction gapLow gapHigh gapSize hist cur).filledPercentage ≤ 100 := by
  have hgs0 : 0 < gapSize := by rw [hgs]; linarith
  have hwfh : ∀ b ∈ hist, b.low ≤ b.high :=
    fun b hb => hwf b (List.mem_append_left ext hb)
  have hrange : ∀ (l : List Bar), (∀ b ∈ l, b.low ≤ b.high) →
      0 ≤ (analyzeGapInteraction gapLow gapHigh gapSize l cur).filledPercentage ∧
      (analyzeGapInteraction gapLow gapHigh gapSize l cur).filledPercentage ≤ 100 := by
    intro l hl
    rcases analyzeGapInteraction_cases gapLow gapHigh gapSize (le_of_lt hgap) l hl cur with
      ⟨_, _, _, hf⟩ | ⟨_, a, b, _, _, _, hab, _, hf⟩
    · rw [hf]; norm_num
    · rw [hf]
      refine ⟨le_min (mul_nonneg (div_nonneg (by linarith) (le_of_lt hgs0)) (by norm_num))
        (by norm_num), min_le_right _ _⟩
  refine ⟨?_, (hrange hist hwfh).1, (hrange hist hwfh).2⟩
  by_cases hemp : hist = []
  · subst hemp
    have h0 : (analyzeGapInteraction gapLow gapHigh gapSize [] cur).filledPercentage = 0 := rfl
    rw [h0]
    exact (hrange ([] ++ ext) hwf).1
  · rcases analyzeGapInteraction_cases gapLow gapHigh gapSize (le_of_lt hgap) hist hwfh cur with
      ⟨_, _, _, hf⟩ | ⟨htpos, l, h, hlo, hhi, h1, h2, h3, hf⟩
    · rw [hf]
      exact (hrange (hist ++ ext) hwf).1
    · obtain ⟨he1, he2, he3⟩ := analyzeGapInteraction_extend_fields gapLow gapHigh
        gapSize cur hist ext hemp
      rcases analyzeGapInteraction_cases gapLow gapHigh gapSize (le_of_lt hgap)
        (hist ++ ext) hwf cur with ⟨ht0, _, _, _⟩ | ⟨_, l', h', hlo', hhi', _, _, _, hf'⟩
      · exact absurd (lt_of_lt_of_le htpos he1) (by rw [ht0]; exact lt_irrefl 0)
      · obtain ⟨l2, hl2, hle2⟩ := he2 l hlo
        obtain ⟨hv2, hh2, hle3⟩ := he3 h hhi
        have hleq : l' = l2 := by
          rw [hl2] at hlo'
          exact (Option.some_inj.mp hlo').symm
        have hheq : h' = hv2 := by
          rw [hh2] at hhi'
          exact (Option.some_inj.mp hhi').symm
        have hsub : h - l ≤ h' - l' := by
          rw [hleq, hheq]; linarith
        rw [hf, hf']
        refine min_le_min ?_ (le_refl _)
        exact mul_le_mul_of_nonneg_right ((div_le_div_iff_of_pos_right hgs0).mpr hsub) (by norm_num)

section
attribute [local semireducible] Rat.inv Rat.mul Rat.add Rat.sub Rat.ofScientific

/-- Witness for claim C6 on the spec's gap [100, 102] with the spec's test
bar as history and one further copy as extension. -/
theorem c6_witness :
    (analyzeGapInteraction 100 102 2 [c4bar4] 103).filledPercentage ≤
      (analyzeGapInteraction 100 102 2 ([c4bar4] ++ [c4bar4]) 103).filledPercentage ∧
    0 ≤ (analyzeGapInteraction 100 102 2 [c4bar4] 103).filledPercentage ∧
    (analyzeGapInteraction 100 102 2 [c4bar4] 103).filledPercentage ≤ 100 :=
  c6_filled_percentage_monotone 100 102 2 103 [c4bar4] [c4bar4]
    (by decide) (by decide) (by decide)

end

/-- Membership in the gap-accumulating fold of detect_fvgs comes from the
starting accumulator or from some scanned index. -/
theorem mem_foldl_append_toList (f : ℕ → Option FairValueGap) (idxs : List ℕ)
    (acc : List FairValueGap) (g : FairValueGap)
    (hg : g ∈ idxs.foldl (fun acc i => acc ++ (f i).toList) acc) :
    g ∈ acc ∨ ∃ i ∈ idxs, f i = some g := by
  induction idxs generalizing acc with
  | nil => exact Or.inl hg
  | cons i t ih =>
    rcases ih (acc ++ (f i).toList) hg with h | ⟨j, hj, hfj⟩
    · rcases List.mem_append.mp h with h' | h'
      · exact Or.inl h'
      · refine Or.inr ⟨i, List.mem_cons_self i t, ?_⟩
        cases hf : f i with
        | none => rw [hf] at h'; cases h'
        | some g' =>
          rw [hf] at h'
          simp only [Option.toList_some, List.mem_singleton] at h'
          subst h'
          rfl
    · exact Or.inr ⟨j, List.mem_cons_of_mem i hj, hfj⟩

/-- The fields of a gap emitted by the scan at index i: the gap is strictly
ordered, its size is the boundary difference, and its interaction fields
are exactly the interaction analysis over the bars after the window. -/
theorem detectAt_some_fields (minGapPct : ℚ) (dfA : List Bar) (tf : String)
    (cur : ℚ) (i : ℕ) (g : FairValueGap)
    (h : detectAt minGapPct dfA tf cur i = some g) :
    g.gapLow < g.gapHigh ∧ g.gapSize = g.gapHigh - g.gapLow ∧
    g.timesTested = (analyzeGapInteraction g.gapLow g.gapHigh g.gapSize
      (dfA.drop (i + 1)) cur).timesTested ∧
    g.lowestTest = (analyzeGapInteraction g.gapLow g.gapHigh g.gapSize
      (dfA.drop (i + 1)) cur).lowestTest ∧
    g.highestTest = (analyzeGapInteraction g.gapLow g.gapHigh g.gapSize
      (dfA.drop (i + 1)) cur).highestTest ∧
    g.filledPercentage = (analyzeGapInteraction g.gapLow g.gapHigh g.gapSize
      (dfA.drop (i + 1)) cur).filledPercentage := by
  simp only [detectAt] at h
  split_ifs at h with hb1 hskip hb2 hskip2
  all_goals cases h
  all_goals exact ⟨by assumption, rfl, rfl, rfl, rfl, rfl⟩

/-- Claim C10: every gap returned by the detection pass over well-formed
bars has, when tested at least once, both test extremes set and clamped in
order inside the gap, and, when never tested, unset extremes and a zero
fill percentage. -/
theorem c10_gap_test_invariants (minGapPct : ℚ) (df : List Bar) (tf : String)
    (cur : ℚ) (lb : ℕ) (hwf : ∀ b ∈ df, b.low ≤ b.high) :
    ∀ g ∈ detectFvgs minGapPct df tf cur lb,
      (0 < g.timesTested → ∃ l h, g.lowestTest = some l ∧ g.highestTest = some h ∧
        g.gapLow ≤ l ∧ l ≤ h ∧ h ≤ g.gapHigh) ∧
      (g.timesTested = 0 → g.lowestTest = none ∧ g.highestTest = none ∧
        g.filledPercentage = 0) := by
  intro g hg
  unfold detectFvgs at hg
  split_ifs at hg with hlen
  · cases hg
  · rcases mem_foldl_append_toList _ _ _ g hg with h | ⟨i, _, hfi⟩
    · cases h
    · obtain ⟨hord, hsz, ht, hlo, hhi, hfp⟩ := detectAt_some_fields _ _ _ _ _ _ hfi
      have hwfd : ∀ b ∈ (df.drop (df.length - min lb df.length)).drop (i + 1),
          b.low ≤ b.high :=
        fun b hb => hwf b (List.mem_of_mem_drop (List.mem_of_mem_drop hb))
      rcases analyzeGapInteraction_cases g.gapLow g.gapHigh g.gapSize
        (le_of_lt hord) _ hwfd cur with ⟨h0, h1, h2, h3⟩ | ⟨hp, l, h, h1, h2, h3, h4, h5, _⟩
      · constructor
        · intro hpos
          rw [ht, h0] at hpos
          exact absurd hpos (lt_irrefl 0)
        · intro _
          exact ⟨hlo.trans h1, hhi.trans h2, hfp.trans h3⟩
      · constructor
        · intro _
          exact ⟨l, h, hlo.trans h1, hhi.trans h2, h3, h4, h5⟩
        · intro hzero
          have hz2 : (analyzeGapInteraction g.gapLow g.gapHigh g.gapSize
              ((df.drop (df.length - min lb df.length)).drop (i + 1)) cur).timesTested = 0 := by
            rw [← ht, hzero]
          rw [hz2] at hp
          exact absurd hp (lt_irrefl 0)

/-- The gap detected in the 4-bar FVG scenario (as established by
c4_fvg_scenario). -/
def c4gapTested : FairValueGap :=
  { gapId := "5m_gap_2", gapType := "bullish", timeframe := "5m",
    gapHigh := 102, gapLow := 100, gapSize := 2, gapMidpoint := 101,
    ageMinutes := 2, timesTested := 1, lowestTest := some 100.5,
    highestTest := some 102, filledPercentage := 75,
    currentlyInsideGap := false }

section
attribute [local semireducible] Rat.inv Rat.mul Rat.add Rat.sub Rat.ofScientific

/-- Witness for claim C10 on the spec's 4-bar scenario gap. -/
theorem c10_witness :
    ∃ l h, c4gapTested.lowestTest = some l ∧ c4gapTested.highestTest = some h ∧
      c4gapTested.gapLow ≤ l ∧ l ≤ h ∧ h ≤ c4gapTested.gapHigh :=
  (c10_gap_test_invariants (1/10) (c4bars3 ++ [c4bar4]) "5m" 103 100 (by decide)
    c4gapTested (by decide)).1 (by decide)

end

/-- Claim C9: a zero-width bar (high = low) whose price is not exactly a bin
edge spans no bins (searchsorted right = searchsorted left), so the bar loop
leaves the volume dict unchanged wherever that bar occurs in the series —
its volume reaches no bin and is missing from the dict's total volume. -/
theorem c9_zero_width_bar_dropped (df : List Bar) (numBins : ℕ) (b : Bar)
    (hb : b.high = b.low)
    (hnotedge : b.low ∉ npLinspace (priceMin df) (priceMax df) numBins) :
    searchRight (npLinspace (priceMin df) (priceMax df) numBins) b.high =
      searchLeft (npLinspace (priceMin df) (priceMax df) numBins) b.low ∧
    (∀ d, addBarVolume (npLinspace (priceMin df) (priceMax df) numBins) d b = d) ∧
    (∀ pre post, df = pre ++ b :: post →
      volumeByPrice df numBins =
        post.foldl (addBarVolume (npLinspace (priceMin df) (priceMax df) numBins))
          (pre.foldl (addBarVolume (npLinspace (priceMin df) (priceMax df) numBins)) [])) := by
  have hsr : searchRight (npLinspace (priceMin df) (priceMax df) numBins) b.high =
      searchLeft (npLinspace (priceMin df) (priceMax df) numBins) b.low := by
    rw [hb]
    unfold searchRight searchLeft
    congr 1
    apply List.filter_congr
    intro e he
    have hne : e ≠ b.low := fun hc => hnotedge (hc ▸ he)
    exact decide_eq_decide.mpr ⟨fun hle => lt_of_le_of_ne hle hne, le_of_lt⟩
  have hid : ∀ d, addBarVolume (npLinspace (priceMin df) (priceMax df) numBins) d b = d := by
    intro d
    unfold addBarVolume
    rw [if_neg]
    rw [hsr]
    exact lt_irrefl _
  refine ⟨hsr, hid, ?_⟩
  intro pre post hdf
  conv_lhs => rw [volumeByPrice, hdf]
  rw [List.foldl_append, List.foldl_cons, ← hdf, hid]

section
attribute [local semireducible] Rat.inv Rat.mul Rat.add Rat.sub Rat.ofScientific

/-- A series containing a zero-width bar at 1.5, off the bin edges of
[0, 4] with 4 bins. -/
def c9df : List Bar :=
  [ { opn := 0, high := 4, low := 0, close := 2, volume := 10 },
    { opn := 1.5, high := 1.5, low := 1.5, close := 1.5, volume := 5 } ]

/-- Witness for claim C9: the zero-width bar of c9df is dropped — adding it
to the empty volume dict leaves the dict empty. -/
theorem c9_witness :
    addBarVolume (npLinspace (priceMin c9df) (priceMax c9df) 4) []
      { opn := 1.5, high := 1.5, low := 1.5, close := 1.5, volume := 5 } = [] :=
  (c9_zero_width_bar_dropped c9df 4
    { opn := 1.5, high := 1.5, low := 1.5, close := 1.5, volume := 5 }
    (by decide) (by decide)).2.1 []

end

/-- Adding v at key k raises the dict's total by v. -/
theorem dictSum_dictAdd (d : List (ℚ × ℚ)) (k v : ℚ) :
    dictSum (dictAdd d k v) = dictSum d + v := by
  induction d with
  | nil => simp [dictAdd, dictSum]
  | cons kv rest ih =>
    obtain ⟨k', v'⟩ := kv
    by_cases hk : k' = k
    · simp [dictAdd, hk, dictSum]
      ring
    · simp [dictAdd, hk, dictSum] at ih ⊢
      rw [ih]
      ring

/-- Spreading one per-bin share over a list of bin indices raises the total
by the number of indices times the share. -/
theorem dictSum_foldl_dictAdd (idxs : List ℕ) (key : ℕ → ℚ) (v : ℚ)
    (d : List (ℚ × ℚ)) :
    dictSum (idxs.foldl (fun d' j => dictAdd d' (key j) v) d) =
      dictSum d + idxs.length * v := by
  induction idxs generalizing d with
  | nil => simp
  | cons j t ih =>
    rw [List.foldl_cons, ih, dictSum_dictAdd]
    simp only [List.length_cons]
    push_cast
    ring

/-- The per-bar amount the bar loop adds to the dict: the number of
in-range spanned bins times the per-bin share. -/
def barContribution (bs : List ℚ) (b : Bar) : ℚ :=
  let lo := searchLeft bs b.low
  let hi := searchRight bs b.high
  if lo < hi then
    (((List.range' lo (hi - lo)).filter (fun j => decide (j + 1 < bs.length))).length : ℚ) *
      (b.volume / ((hi - lo : ℕ) : ℚ))
  else 0

/-- One bar-loop step raises the dict total by the bar's contribution. -/
theorem dictSum_addBarVolume (bs : List ℚ) (d : List (ℚ × ℚ)) (b : Bar) :
    dictSum (addBarVolume bs d b) = dictSum d + barContribution bs b := by
  simp only [addBarVolume, barContribution]
  split_ifs with hlt
  · rw [dictSum_foldl_dictAdd]
  · simp

/-- The dict total after the whole bar loop is the sum of all bar
contributions. -/
theorem dictSum_foldl_addBarVolume (bs : List ℚ) (df : List Bar)
    (d : List (ℚ × ℚ)) :
    dictSum (df.foldl (addBarVolume bs) d) =
      dictSum d + (df.map (barContribution bs)).sum := by
  induction df generalizing d with
  | nil => simp
  | cons b t ih =>
    rw [List.foldl_cons, ih, dictSum_addBarVolume]
    simp
    ring

/-- The linspace edge list has n + 1 entries. -/
theorem npLinspace_length (lo hi : ℚ) (n : ℕ) : (npLinspace lo hi n).length = n + 1 := by
  unfold npLinspace
  rw [List.length_map, List.length_range]

/-- Membership in the linspace edge list. -/
theorem mem_npLinspace {lo hi : ℚ} {n : ℕ} {e : ℚ} :
    e ∈ npLinspace lo hi n ↔ ∃ j ≤ n, e = lo + (j : ℚ) * ((hi - lo) / n) := by
  unfold npLinspace
  rw [List.mem_map]
  constructor
  · rintro ⟨j, hj, rfl⟩
    exact ⟨j, Nat.lt_succ_iff.mp (List.mem_range.mp hj), rfl⟩
  · rintro ⟨j, hj, rfl⟩
    exact ⟨j, List.mem_range.mpr (Nat.lt_succ_iff.mpr hj), rfl⟩

/-- The top linspace edge is exactly hi. -/
theorem npLinspace_top (lo hi : ℚ) {n : ℕ} (hn : 0 < n) :
    lo + (n : ℚ) * ((hi - lo) / n) = hi := by
  have : (n : ℚ) ≠ 0 := Nat.cast_ne_zero.mpr (Nat.pos_iff_ne_zero.mp hn)
  field_simp

/-- Every linspace edge is at most hi (when lo ≤ hi). -/
theorem npLinspace_le_top {lo hi : ℚ} {n : ℕ} (hn : 0 < n) (hle : lo ≤ hi)
    {e : ℚ} (he : e ∈ npLinspace lo hi n) : e ≤ hi := by
  rcases mem_npLinspace.mp he with ⟨j, hj, rfl⟩
  have hw : 0 ≤ (hi - lo) / n := div_nonneg (by linarith) (Nat.cast_nonneg n)
  calc lo + (j : ℚ) * ((hi - lo) / n)
      ≤ lo + (n : ℚ) * ((hi - lo) / n) := by
        have : (j : ℚ) ≤ n := Nat.cast_le.mpr hj
        nlinarith
    _ = hi := npLinspace_top lo hi hn

/-- The right search never exceeds the number of edges. -/
theorem searchRight_le_length (bs : List ℚ) (x : ℚ) :
    searchRight bs x ≤ bs.length :=
  List.length_filter_le _ _

/-- The right search saturates exactly when x reaches the top edge. -/
theorem searchRight_eq_full_iff {pmin pmax : ℚ} {n : ℕ} (hn : 0 < n)
    (hle : pmin ≤ pmax) (x : ℚ) :
    searchRight (npLinspace pmin pmax n) x = n + 1 ↔ pmax ≤ x := by
  constructor
  · intro h
    have hlen : (List.filter (fun e => decide (e ≤ x)) (npLinspace pmin pmax n)).length =
        (npLinspace pmin pmax n).length := by
      rw [npLinspace_length]
      exact h
    have hfull := (List.filter_sublist (l := npLinspace pmin pmax n)
      (p := fun e => decide (e ≤ x))).eq_of_length hlen
    have hmem : pmax ∈ npLinspace pmin pmax n :=
      mem_npLinspace.mpr ⟨n, le_refl n, (npLinspace_top pmin pmax hn).symm⟩
    have := List.filter_eq_self.mp hfull pmax hmem
    exact of_decide_eq_true this
  · intro h
    unfold searchRight
    rw [List.filter_eq_self.mpr, npLinspace_length]
    intro e he
    exact decide_eq_true (le_trans (npLinspace_le_top hn hle he) h)

/-- Folding max over a list bounds the seed from below. -/
theorem le_foldl_max_init : ∀ (ys : List ℚ) (a : ℚ), a ≤ ys.foldl max a := by
  intro ys
  induction ys with
  | nil => intro a; exact le_refl a
  | cons b t ih =>
    intro a
    exact le_trans (le_max_left a b) (ih (max a b))

/-- Folding max over a list bounds every member from below. -/
theorem le_foldl_max_mem : ∀ (ys : List ℚ) (a x : ℚ), x ∈ ys → x ≤ ys.foldl max a := by
  intro ys
  induction ys with
  | nil => intro a x hx; cases hx
  | cons b t ih =>
    intro a x hx
    rcases List.mem_cons.mp hx with rfl | hx'
    · exact le_trans (le_max_right a x) (le_foldl_max_init t (max a x))
    · exact ih (max a b) x hx'

/-- Every member is at most the list maximum. -/
theorem le_listMax (l : List ℚ) (x : ℚ) (hx : x ∈ l) : x ≤ listMax l := by
  cases l with
  | nil => cases hx
  | cons y ys =>
    rcases List.mem_cons.mp hx with rfl | hx'
    · exact le_foldl_max_init ys x
    · exact le_foldl_max_mem ys y x hx'

/-- Folding min over a list bounds the seed from above. -/
theorem foldl_min_le_init : ∀ (ys : List ℚ) (a : ℚ), ys.foldl min a ≤ a := by
  intro ys
  induction ys with
  | nil => intro a; exact le_refl a
  | cons b t ih =>
    intro a
    exact le_trans (ih (min a b)) (min_le_left a b)

/-- Folding min over a list bounds every member from above. -/
theorem foldl_min_le_mem : ∀ (ys : List ℚ) (a x : ℚ), x ∈ ys → ys.foldl min a ≤ x := by
  intro ys
  induction ys with
  | nil => intro a x hx; cases hx
  | cons b t ih =>
    intro a x hx
    rcases List.mem_cons.mp hx with rfl | hx'
    · exact le_trans (foldl_min_le_init t (min a x)) (min_le_right a x)
    · exact ih (min a b) x hx'

/-- The list minimum is at most every member. -/
theorem listMin_le (l : List ℚ) (x : ℚ) (hx : x ∈ l) : listMin l ≤ x := by
  cases l with
  | nil => cases hx
  | cons y ys =>
    rcases List.mem_cons.mp hx with rfl | hx'
    · exact foldl_min_le_init ys x
    · exact foldl_min_le_mem ys y x hx'

/-- A bar's high never exceeds the series-wide maximum. -/
theorem bar_high_le_priceMax (df : List Bar) (b : Bar) (hb : b ∈ df) :
    b.high ≤ priceMax df :=
  le_listMax _ _ (List.mem_map_of_mem Bar.high hb)

/-- Per-bar conservation law: the amount the bar loop adds for a bar of the
series is the bar's volume minus its lost share. -/
theorem barContribution_eq_sub (df : List Bar) (numBins : ℕ) (hn : 0 < numBins)
    (hrange : priceMin df < priceMax df) (b : Bar) (hbm : b ∈ df) :
    barContribution (npLinspace (priceMin df) (priceMax df) numBins) b =
      b.volume - lostTerm (npLinspace (priceMin df) (priceMax df) numBins)
        (priceMax df) b := by
  simp only [barContribution, lostTerm]
  set bs := npLinspace (priceMin df) (priceMax df) numBins with hbs
  set lo := searchLeft bs b.low with hlo
  set hi := searchRight bs b.high with hhi
  by_cases hspan : lo < hi
  · rw [if_pos hspan, if_neg (not_le_of_lt hspan)]
    have hhile : hi ≤ numBins + 1 := by
      rw [hhi, hbs]
      calc searchRight (npLinspace (priceMin df) (priceMax df) numBins) b.high
          ≤ (npLinspace (priceMin df) (priceMax df) numBins).length :=
            searchRight_le_length _ _
        _ = numBins + 1 := npLinspace_length _ _ _
    have hlenbs : bs.length = numBins + 1 := by rw [hbs]; exact npLinspace_length _ _ _
    have hspanQ : ((hi - lo : ℕ) : ℚ) ≠ 0 := by
      have : 0 < hi - lo := Nat.sub_pos_of_lt hspan
      exact_mod_cast Nat.pos_iff_ne_zero.mp this
    by_cases htop : b.high = priceMax df
    · rw [if_pos htop]
      have hfull : hi = numBins + 1 := by
        rw [hhi, hbs]
        exact (searchRight_eq_full_iff hn (le_of_lt hrange) b.high).mpr (le_of_eq htop.symm)
      have hlon : lo ≤ numBins := by omega
      have h1 : hi - lo = (numBins - lo) + 1 := by omega
      have hsplit : List.range' lo (hi - lo) =
          List.range' lo (numBins - lo) ++ [numBins] := by
        rw [h1, List.range'_1_concat, Nat.add_sub_cancel' hlon]
      have hkeep : (List.range' lo (numBins - lo)).filter
          (fun j => decide (j + 1 < bs.length)) = List.range' lo (numBins - lo) := by
        apply List.filter_eq_self.mpr
        intro j hj
        have hjlt : j < lo + (numBins - lo) := (List.mem_range'_1.mp hj).2
        exact decide_eq_true (by omega)
      have hdrop : ([numBins].filter (fun j => decide (j + 1 < bs.length))) = [] := by
        simp [hlenbs]
      rw [hsplit, List.filter_append, hkeep, hdrop, List.append_nil,
        List.length_range']
      have hcast : ((hi - lo : ℕ) : ℚ) = ((numBins - lo : ℕ) : ℚ) + 1 := by
        rw [h1]
        push_cast
        ring
      rw [eq_sub_iff_add_eq]
      have hc2 : ((numBins - lo : ℕ) : ℚ) = ((hi - lo : ℕ) : ℚ) - 1 := by
        rw [hcast]; ring
      rw [hc2]
      field_simp
      ring
    · rw [if_neg htop]
      have hnotfull : hi ≠ numBins + 1 := by
        intro hc
        apply htop
        apply le_antisymm (bar_high_le_priceMax df b hbm)
        apply (searchRight_eq_full_iff hn (le_of_lt hrange) b.high).mp
        rw [← hbs, ← hhi]
        exact hc
      have hkeep : (List.range' lo (hi - lo)).filter
          (fun j => decide (j + 1 < bs.length)) = List.range' lo (hi - lo) := by
        apply List.filter_eq_self.mpr
        intro j hj
        have hjlt : j < lo + (hi - lo) := (List.mem_range'_1.mp hj).2
        exact decide_eq_true (by omega)
      rw [hkeep, List.length_range', sub_zero]
      field_simp
  · rw [if_neg hspan, if_pos (not_lt.mp hspan)]
    ring

/-- Summing a difference of maps termwise. -/
theorem sum_map_sub (l : List Bar) (f g : Bar → ℚ) :
    (l.map (fun x => f x - g x)).sum = (l.map f).sum - (l.map g).sum := by
  induction l with
  | nil => simp
  | cons x t ih =>
    simp only [List.map_cons, List.sum_cons, ih]
    ring

/-- Claim C1, amended: for a non-empty series with a non-degenerate price
range, the sum of the per-bin volumes equals the total input volume minus
the dropped volume: each bar whose [low, high] interval contains no bin
edge is dropped whole, and each bar whose high equals the series maximum
loses exactly one of its per-bin shares; all other volume is conserved. -/
theorem c1_volume_conservation_amended (df : List Bar) (numBins : ℕ)
    (hne : df ≠ []) (hn : 0 < numBins) (hrange : priceMin df < priceMax df) :
    binnedVolume df numBins = totalInputVolume df - lostVolume df numBins := by
  unfold binnedVolume volumeByPrice totalInputVolume lostVolume
  rw [dictSum_foldl_addBarVolume]
  have h0 : dictSum ([] : List (ℚ × ℚ)) = 0 := rfl
  rw [h0, zero_add]
  have hmap : df.map (barContribution (npLinspace (priceMin df) (priceMax df) numBins)) =
      df.map (fun b => b.volume -
        lostTerm (npLinspace (priceMin df) (priceMax df) numBins) (priceMax df) b) :=
    List.map_congr_left (fun b hb => barContribution_eq_sub df numBins hn hrange b hb)
  rw [hmap, sum_map_sub]

section
attribute [local semireducible] Rat.inv Rat.mul Rat.add Rat.sub Rat.ofScientific

/-- A one-bar series spanning the whole [0, 1] price range with volume 21. -/
def c1df : List Bar := [{ opn := 0, high := 1, low := 0, close := 1, volume := 21 }]

/-- Claim C1 is false on the code: this non-empty series with a
non-degenerate price range and the required columns bins only 20 of its 21
units of volume — the bar's high equals the series maximum, so its topmost
per-bin share is dropped. -/
theorem c1_counterexample :
    c1df ≠ [] ∧ priceMin c1df < priceMax c1df ∧
    binnedVolume c1df 20 ≠ totalInputVolume c1df := by
  refine ⟨by decide, by decide, by decide⟩

/-- Witness for the amended claim C1 on the same series: 20 = 21 - 1. -/
theorem c1_amended_witness :
    binnedVolume c1df 20 = totalInputVolume c1df - lostVolume c1df 20 :=
  c1_volume_conservation_amended c1df 20 (by decide) (by decide) (by decide)

end

/-- The value-area loop only appends to the price list. -/
theorem vaLoop_prices_grow (d : List (ℚ × ℚ)) (allP : List ℚ) (target : ℚ) :
    ∀ (fuel : ℕ) (acc : ℚ) (ps : List ℚ) (li ri : ℤ),
      ∃ suffix, (vaLoop d allP target fuel acc ps li ri).2.1 = ps ++ suffix := by
  intro fuel
  induction fuel with
  | zero =>
    intro acc ps li ri
    exact ⟨[], (List.append_nil ps).symm⟩
  | succ f ih =>
    intro acc ps li ri
    simp only [vaLoop]
    split_ifs <;>
      first
        | exact ⟨[], (List.append_nil ps).symm⟩
        | (apply Exists.intro
           rw [(ih _ _ _ _).choose_spec, List.append_assoc])

/-- When the value-area loop reports normal termination, the accumulated
volume reached the target. -/
theorem vaLoop_flag_target (d : List (ℚ × ℚ)) (allP : List ℚ) (target : ℚ) :
    ∀ (fuel : ℕ) (acc : ℚ) (ps : List ℚ) (li ri : ℤ),
      (vaLoop d allP target fuel acc ps li ri).2.2 = true →
      target ≤ (vaLoop d allP target fuel acc ps li ri).1 := by
  intro fuel
  induction fuel with
  | zero =>
    intro acc ps li ri hflag
    cases hflag
  | succ f ih =>
    intro acc ps li ri
    simp only [vaLoop]
    split_ifs with hdone <;>
      first
        | (intro _; exact hdone)
        | exact ih _ _ _ _
        | (intro hflag; cases hflag)

/-- Reaching seventy percent of a positive total makes the rounded
percentage at least 70. -/
theorem le_roundQ_percentage {av tv : ℚ} (htot : 0 < tv)
    (htarget : tv * (7/10) ≤ av) :
    (70:ℚ) ≤ roundQ 2 (av / tv * 100) := by
  have hq : (7:ℚ)/10 ≤ av / tv := (le_div_iff htot).mpr (by linarith)
  have h70 : (70:ℚ) ≤ av / tv * 100 := by
    calc (70:ℚ) = 7/10 * 100 := by norm_num
      _ ≤ av / tv * 100 := mul_le_mul_of_nonneg_right hq (by norm_num)
  calc (70:ℚ) = ((70:ℤ) : ℚ) := by norm_num
    _ = roundQ 2 ((70:ℤ) : ℚ) := (roundQ_intCast 2 70).symm
    _ ≤ roundQ 2 (av / tv * 100) := roundQ_mono 2 (by exact_mod_cast h70)

/-- Claim C3, amended: whenever the volume profile is returned,
value_area_low ≤ point_of_control ≤ value_area_high; and under normal
termination of the value-area expansion with positive total volume the
reported percentage is at least 70.  (The original claim's "strictly less
than 100 unless every bin was included" fails: rounding can report 100.0
with bins excluded, see the counterexample.) -/
theorem c3_value_area_amended (df : List Bar) (numBins : ℕ)
    (vp : VolumeProfile) (normal : Bool) (vaPrices : List ℚ)
    (h : vpCore df numBins = some (vp, normal, vaPrices)) :
    vp.valueAreaLow ≤ vp.pointOfControl ∧
    vp.pointOfControl ≤ vp.valueAreaHigh ∧
    (normal = true → 0 < vp.totalVolume → 70 ≤ vp.valueAreaPercentage) := by
  simp only [vpCore] at h
  split_ifs at h with h1 h2 h3
  cases h
  refine ⟨?_, ?_, ?_⟩
  · dsimp only
    apply roundQ_mono
    apply listMin_le
    rw [(vaLoop_prices_grow _ _ _ _ _ _ _ _).choose_spec]
    exact List.mem_append_left _ (List.mem_singleton_self _)
  · dsimp only
    apply roundQ_mono
    apply le_listMax
    rw [(vaLoop_prices_grow _ _ _ _ _ _ _ _).choose_spec]
    exact List.mem_append_left _ (List.mem_singleton_self _)
  · intro hflag htot
    dsimp only at htot ⊢
    have htarget := vaLoop_flag_target _ _ _ _ _ _ _ _ hflag
    exact le_roundQ_percentage htot htarget

section
attribute [local semireducible] Rat.inv Rat.mul Rat.add Rat.sub Rat.ofScientific

/-- A series concentrating almost all volume in one bin (999000 in the
lowest bin, two thirds of a unit in two high bins, with the top share of
the second bar dropped at the max edge). -/
def c3df : List Bar :=
  [ { opn := 0, high := 1/2, low := 0, close := 0, volume := 999000 },
    { opn := 10, high := 21/2, low := 189/20, close := 10, volume := 2 } ]

/-- Claim C3 is false on the code: on c3df the value-area expansion
terminates normally with only the POC bin (price 0.26) in the value area,
the dict also holds the positive-volume bin at price 9.71, yet the reported
value_area_percentage rounds up to exactly 100. -/
theorem c3_counterexample :
    (vpCore c3df 20).map (fun r => (r.1.valueAreaPercentage, r.2.1, r.2.2)) =
      some (100, true, [13/50]) ∧
    ((971:ℚ)/100, (2:ℚ)/3) ∈ volumeByPrice c3df 20 ∧
    ¬ ((971:ℚ)/100 ∈ ([13/50] : List ℚ)) ∧ (0:ℚ) < 2/3 := by
  exact ⟨by decide, by decide, by decide, by decide⟩

/-- The volume profile of c1df with 4 bins, as returned by vpCore. -/
def c3vpOne : VolumeProfile :=
  { pointOfControl := 3/25,
    valueAreaHigh := 31/50,
    valueAreaLow := 3/25,
    highVolumeNodes :=
      [ { nstart := 0, nend := 6/25, nvolume := 21/5 },
        { nstart := 13/50, nend := 31/50, nvolume := 21/5 },
        { nstart := 19/25, nend := 1, nvolume := 21/5 } ],
    lowVolumeNodes := [ { nstart := 3/25, nend := 1, nvolume := 21/5 } ],
    totalVolume := 84/5,
    valueAreaVolume := 63/5,
    valueAreaPercentage := 75 }

/-- Witness for the amended claim C3 on c1df with 4 bins. -/
theorem c3_amended_witness :
    vpCore c1df 4 = some (c3vpOne, true, [3/25, 19/50, 31/50]) ∧
    c3vpOne.valueAreaLow ≤ c3vpOne.pointOfControl ∧
    c3vpOne.pointOfControl ≤ c3vpOne.valueAreaHigh ∧
    70 ≤ c3vpOne.valueAreaPercentage := by
  have h : vpCore c1df 4 = some (c3vpOne, true, [3/25, 19/50, 31/50]) := by decide
  obtain ⟨ha, hb, hc⟩ := c3_value_area_amended c1df 4 c3vpOne true
    [3/25, 19/50, 31/50] h
  exact ⟨h, ha, hb, hc rfl (by decide)⟩

end
